import Mathlib

/-!
Verification of the Bake command-alias manager (bake.py, constants.py).

The registry state is modelled as a flat filesystem: association lists from
full path strings to file contents and to symlink targets, plus a set of
existing directories and a set of readable paths.  Python `str.split` is
modelled character-exactly by `pySplit` on `List Char`.  Each `os` call site
that can raise `OSError` carries a Boolean fault flag, so that the error
handling paths of `add_command`, `delete_command` and `rename_command` can be
analysed; a raw call with its flag set raises (propagating to the surrounding
`try`/`except`), while `safe_remove_file` / `safe_remove_symlink` absorb the
fault and return `false` exactly as in the source.
-/

set_option maxRecDepth 8000

/-! ## Association lists (path -> value) -/

def alookup : List (String × String) → String → Option String
  | [], _ => none
  | e :: rest, k => if e.1 = k then some e.2 else alookup rest k

def aerase : List (String × String) → String → List (String × String)
  | [], _ => []
  | e :: rest, k => if e.1 = k then aerase rest k else e :: aerase rest k

theorem alookup_aerase_self (l : List (String × String)) (k : String) :
    alookup (aerase l k) k = none := by
  induction l with
  | nil => rfl
  | cons e rest ih =>
    by_cases h : e.1 = k <;> simp [aerase, alookup, h, ih]

theorem alookup_aerase_ne (l : List (String × String)) (k k' : String) (h : k ≠ k') :
    alookup (aerase l k) k' = alookup l k' := by
  induction l with
  | nil => rfl
  | cons e rest ih =>
    simp only [aerase]
    by_cases he : e.1 = k
    · have hne : ¬ e.1 = k' := fun hh => h (he ▸ hh)
      rw [if_pos he, ih]
      simp [alookup, hne]
    · rw [if_neg he]
      simp only [alookup]
      by_cases he' : e.1 = k' <;> simp [he', ih]

theorem aerase_of_alookup_none (l : List (String × String)) (k : String)
    (h : alookup l k = none) : aerase l k = l := by
  induction l with
  | nil => rfl
  | cons e rest ih =>
    by_cases he : e.1 = k
    · simp [alookup, he] at h
    · simp [alookup, he] at h
      simp [aerase, he, ih h]

theorem alookup_cons_self (l : List (String × String)) (k : String) (v : String) :
    alookup ((k, v) :: l) k = some v := by simp [alookup]

theorem alookup_cons_ne (l : List (String × String)) (k k' v : String) (h : k ≠ k') :
    alookup ((k, v) :: l) k' = alookup l k' := by simp [alookup, h]

theorem alookup_none_not_mem (l : List (String × String)) (k : String)
    (h : alookup l k = none) : k ∉ l.map Prod.fst := by
  induction l with
  | nil => simp
  | cons e rest ih =>
    by_cases he : e.1 = k
    · simp [alookup, he] at h
    · simp [alookup, he] at h
      simp [he, ih h]
      intro hk
      exact he hk.symm

theorem alookup_mem_some (l : List (String × String)) (k : String)
    (h : k ∈ l.map Prod.fst) : ∃ v, alookup l k = some v := by
  induction l with
  | nil => simp at h
  | cons e rest ih =>
    by_cases he : e.1 = k
    · exact ⟨e.2, by simp [alookup, he]⟩
    · rw [List.map_cons] at h
      rcases List.mem_cons.mp h with h1 | h2
      · exact absurd h1.symm he
      · simpa [alookup, he] using ih h2

theorem alookup_some_mem (l : List (String × String)) (k v : String)
    (h : alookup l k = some v) : (k, v) ∈ l := by
  induction l with
  | nil => simp [alookup] at h
  | cons e rest ih =>
    by_cases he : e.1 = k
    · simp [alookup, he] at h
      exact List.mem_cons.mpr (Or.inl (by rw [← he, ← h]))
    · simp [alookup, he] at h
      exact List.mem_cons.mpr (Or.inr (ih h))

/-! ## Python `str.split` on `List Char`

`firstOccur sep s` is the index of the first occurrence of `sep` in `s`
(python `s.find(sep)`), and `pySplit sep s` is python `s.split(sep)` for a
non-empty separator: cut at the first occurrence and continue after it.  The
structural fuel equals `s.length`, which always suffices because every step
consumes at least `sep.length ≥ 1` characters. -/

def firstOccur (sep : List Char) : List Char → Option Nat
  | [] => none
  | c :: rest =>
    if sep.isPrefixOf (c :: rest) then some 0
    else (firstOccur sep rest).map (· + 1)

def pySplitAux (sep : List Char) : Nat → List Char → List (List Char)
  | 0, s => [s]
  | Nat.succ fuel, s =>
    match firstOccur sep s with
    | none => [s]
    | some i => s.take i :: pySplitAux sep fuel (s.drop (i + sep.length))

def pySplit (sep s : List Char) : List (List Char) :=
  if sep = [] then [s] else pySplitAux sep s.length s

/-- Substring test, implemented independently of `firstOccur`:
`pat` occurs in `s` iff it is a prefix of some tail of `s`. -/
def containsSubstr (pat s : List Char) : Bool :=
  (List.range (s.length + 1)).any fun j => pat.isPrefixOf (s.drop j)

/-- Strip a prefix from a character list, or fail. -/
def stripPre : List Char → List Char → Option (List Char)
  | [], s => some s
  | _ :: _, [] => none
  | a :: pre, b :: s => if a = b then stripPre pre s else none

theorem stripPre_append (pre rest : List Char) : stripPre pre (pre ++ rest) = some rest := by
  induction pre with
  | nil => rfl
  | cons a pre ih => simp [stripPre, ih]

theorem stripPre_some (pre s r : List Char) (h : stripPre pre s = some r) :
    s = pre ++ r := by
  induction pre generalizing s with
  | nil =>
    simp only [stripPre, Option.some_inj] at h
    simpa using h
  | cons a pre ih =>
    cases s with
    | nil => simp [stripPre] at h
    | cons b s =>
      by_cases hab : a = b
      · simp [stripPre, hab] at h
        simpa [hab] using ih s h
      · simp [stripPre, hab] at h

/-! ### isPrefixOf facts -/

theorem isPrefixOf_append_self (l t : List Char) : l.isPrefixOf (l ++ t) = true := by
  induction l with
  | nil => simp [List.isPrefixOf]
  | cons a l ih => simp [List.isPrefixOf, ih]

theorem isPrefixOf_exists (l s : List Char) (h : l.isPrefixOf s = true) :
    ∃ t, s = l ++ t := by
  induction l generalizing s with
  | nil => exact ⟨s, rfl⟩
  | cons a l ih =>
    cases s with
    | nil => simp [List.isPrefixOf] at h
    | cons b s =>
      simp only [List.isPrefixOf, Bool.and_eq_true, beq_iff_eq] at h
      obtain ⟨t, ht⟩ := ih s h.2
      exact ⟨t, by simp [h.1, ht]⟩

theorem isPrefixOf_nil_false (a : Char) (l : List Char) :
    (a :: l).isPrefixOf ([] : List Char) = false := rfl

/-- A prefix test only looks at the first `sep.length` characters: appending
anything after a block at least that long changes nothing. -/
theorem isPrefixOf_append_of_le_length (sep u z : List Char) (h : sep.length ≤ u.length) :
    sep.isPrefixOf (u ++ z) = sep.isPrefixOf u := by
  induction sep generalizing u with
  | nil => simp [List.isPrefixOf]
  | cons a sep ih =>
    cases u with
    | nil => simp at h
    | cons b u =>
      simp only [List.length_cons, Nat.succ_le_succ_iff] at h
      simp [List.isPrefixOf, ih u h]

theorem containsSubstr_false_not_pre (pat s : List Char) (hp : pat ≠ [])
    (h : containsSubstr pat s = false) (j : Nat) : pat.isPrefixOf (s.drop j) = false := by
  by_cases hj : j ≤ s.length
  · refine Bool.eq_false_iff.mpr fun hb => ?_
    have hc : containsSubstr pat s = true := by
      unfold containsSubstr
      exact List.any_eq_true.mpr ⟨j, List.mem_range.mpr (Nat.lt_succ_of_le hj), hb⟩
    rw [h] at hc
    exact Bool.false_ne_true hc
  · have : s.drop j = [] := List.drop_eq_nil_of_le (Nat.le_of_not_le hj)
    rw [this]
    cases pat with
    | nil => exact absurd rfl hp
    | cons a l => rfl

theorem containsSubstr_of_decomp (pat u v : List Char) :
    containsSubstr pat (u ++ pat ++ v) = true := by
  unfold containsSubstr
  apply List.any_eq_true.mpr
  refine ⟨u.length, List.mem_range.mpr ?_, ?_⟩
  · rw [List.length_append, List.length_append]
    omega
  · have hd : (u ++ pat ++ v).drop u.length = pat ++ v := by
      rw [List.append_assoc, List.drop_left]
    rw [hd]
    exact isPrefixOf_append_self pat v

/-! ### firstOccur facts -/

theorem firstOccur_bound (sep s : List Char) (i : Nat)
    (h : firstOccur sep s = some i) : i + sep.length ≤ s.length := by
  induction s generalizing i with
  | nil => simp [firstOccur] at h
  | cons c rest ih =>
    simp only [firstOccur] at h
    by_cases hp : sep.isPrefixOf (c :: rest) = true
    · rw [if_pos hp] at h
      obtain ⟨t, ht⟩ := isPrefixOf_exists _ _ hp
      have : (c :: rest).length = sep.length + t.length := by rw [ht, List.length_append]
      simp only [Option.some_inj] at h
      omega
    · rw [if_neg hp] at h
      cases hfo : firstOccur sep rest with
      | none => rw [hfo] at h; simp at h
      | some i' =>
        rw [hfo] at h
        simp only [Option.map_some', Option.some_inj] at h
        have := ih i' hfo
        simp only [List.length_cons]
        omega

theorem firstOccur_none_of_no_prefix (sep s : List Char)
    (h : ∀ j, sep.isPrefixOf (s.drop j) = false) : firstOccur sep s = none := by
  induction s with
  | nil => rfl
  | cons c rest ih =>
    have h0 := h 0
    simp only [List.drop_zero] at h0
    simp only [firstOccur, h0, if_false, Bool.false_eq_true]
    rw [ih fun j => by simpa using h (j + 1)]
    rfl

theorem firstOccur_append (sep x y : List Char) (hsep : sep ≠ [])
    (hx : ∀ j, j < x.length → sep.isPrefixOf (x.drop j ++ y) = false)
    (hy : sep.isPrefixOf y = true) : firstOccur sep (x ++ y) = some x.length := by
  induction x with
  | nil =>
    cases y with
    | nil =>
      cases sep with
      | nil => exact absurd rfl hsep
      | cons a l => simp [List.isPrefixOf] at hy
    | cons b ys => simp [firstOccur, hy]
  | cons c xs ih =>
    have h0 : sep.isPrefixOf (c :: (xs ++ y)) = false := by
      have := hx 0 (by simp)
      simpa using this
    have ih' := ih fun j hj => by simpa using hx (j + 1) (by simpa using Nat.succ_lt_succ hj)
    simp only [List.cons_append, firstOccur, List.append_eq, h0, Bool.false_eq_true, if_false,
      ih', Option.map_some', List.length_cons]

/-! ### More list helpers -/

/-- Linear no-occurrence scanner: `pat` is a prefix of no tail of `s`. -/
def noOccur (pat : List Char) : List Char → Bool
  | [] => true
  | c :: rest => !(pat.isPrefixOf (c :: rest)) && noOccur pat rest

theorem isPrefixOf_nil (sep : List Char) (h : sep ≠ []) :
    sep.isPrefixOf ([] : List Char) = false := by
  cases sep with
  | nil => exact absurd rfl h
  | cons a l => rfl

theorem noOccur_drops (pat s : List Char) (hp : pat ≠ [])
    (h : noOccur pat s = true) (j : Nat) : pat.isPrefixOf (s.drop j) = false := by
  induction s generalizing j with
  | nil =>
    rw [List.drop_nil]
    exact isPrefixOf_nil pat hp
  | cons c rest ih =>
    simp only [noOccur, Bool.and_eq_true, Bool.not_eq_true'] at h
    cases j with
    | zero => exact h.1
    | succ j => exact ih h.2 j

theorem drop_append_le (x y : List Char) (j : Nat) (h : j ≤ x.length) :
    (x ++ y).drop j = x.drop j ++ y := by
  induction x generalizing j with
  | nil =>
    have : j = 0 := Nat.le_zero.mp h
    simp [this]
  | cons a xs ih =>
    cases j with
    | zero => simp
    | succ j =>
      simp only [List.cons_append, List.drop_succ_cons]
      exact ih j (Nat.succ_le_succ_iff.mp h)

theorem drop_append_ge (x y : List Char) (j : Nat) (h : x.length ≤ j) :
    (x ++ y).drop j = y.drop (j - x.length) := by
  induction x generalizing j with
  | nil => simp
  | cons a xs ih =>
    cases j with
    | zero => simp at h
    | succ j =>
      simp only [List.cons_append, List.drop_succ_cons, List.length_cons, Nat.succ_sub_succ]
      exact ih j (Nat.succ_le_succ_iff.mp h)

theorem isSuffixOf_append_self (l t : List Char) : l.isSuffixOf (t ++ l) = true := by
  simp only [List.isSuffixOf, List.reverse_append]
  exact isPrefixOf_append_self l.reverse t.reverse

theorem no_decomp_of_isSuffixOf_false (C p : List Char) (h : C.isSuffixOf p = false)
    (v : List Char) : p ≠ v ++ C := by
  intro hv
  rw [hv, isSuffixOf_append_self] at h
  simp at h

/-- Alignment at the first occurrence of a distinguished character `q`:
if neither block left of `q` contains `q`, the two blocks agree. -/
theorem append_quote_align (q : Char) (u C T t : List Char) (hu : q ∉ u) (hC : q ∉ C)
    (h : u ++ q :: T = C ++ q :: t) : u = C := by
  induction u generalizing C with
  | nil =>
    cases C with
    | nil => rfl
    | cons c C' =>
      simp only [List.nil_append, List.cons_append, List.cons.injEq] at h
      exact absurd (List.mem_cons_self c C') (h.1 ▸ hC)
  | cons a u' ih =>
    cases C with
    | nil =>
      simp only [List.cons_append, List.nil_append, List.cons.injEq] at h
      exact absurd (List.mem_cons_self a u') (h.1 ▸ hu)
    | cons c C' =>
      simp only [List.cons_append, List.cons.injEq] at h
      have hu' : q ∉ u' := fun hh => hu (List.mem_cons_of_mem a hh)
      have hC' : q ∉ C' := fun hh => hC (List.mem_cons_of_mem c hh)
      rw [h.1, ih C' hu' hC' h.2]

theorem pySplitAux_of_none (sep s : List Char) (fuel : Nat)
    (h : firstOccur sep s = none) : pySplitAux sep fuel s = [s] := by
  cases fuel with
  | zero => rfl
  | succ fuel => simp [pySplitAux, h]

/-! ## The wrapper template (`create_wrapper_script`, bake.py lines 152-187)

The renderer is an f-string: a fixed head, the literal marker
`script_path = "`, the interpolated target path, a closing quote, and a fixed
tail.  The doubled braces of the f-string appear literally (single braces) in
the rendered text. -/

def wrapperHead : String := "#!/usr/bin/env python3\nimport sys\nimport os\nfrom pathlib import Path\n\n"

def markerCoreStr : String := "script_path = "

def markerStr : String := "script_path = \""

def wrapperTail : String := "\n\ndef main():\n    # Validate script exists\n    if not os.path.exists(script_path):\n        print(f\"Error: Script not found: \x7bscript_path\x7d\", file=sys.stderr)\n        sys.exit(1)\n    \n    # Check if script is readable\n    if not os.access(script_path, os.R_OK):\n        print(f\"Error: Cannot read script: \x7bscript_path\x7d\", file=sys.stderr)\n        sys.exit(1)\n    \n    # Get script arguments\n    args = sys.argv[1:]\n    \n    try:\n        # Execute the script\n        os.execv(sys.executable, [sys.executable, script_path] + args)\n    except OSError as e:\n        print(f\"Error executing script: \x7be\x7d\", file=sys.stderr)\n        sys.exit(1)\n    except Exception as e:\n        print(f\"Unexpected error: \x7be\x7d\", file=sys.stderr)\n        sys.exit(1)\n\nif __name__ == \"__main__\":\n    main()\n"

/-- bake.py `create_wrapper_script`: renders the wrapper text for a target. -/
def create_wrapper_script (script_path : String) : String :=
  wrapperHead ++ markerStr ++ script_path ++ "\"" ++ wrapperTail

/-- The extraction idiom used at bake.py lines 257, 353, 365, 658:
`content.split('script_path = "')[1].split('"')[0]`.  The `[1]` raises
`IndexError` when the marker does not occur, modelled as `none`. -/
def extractScriptPath (content : String) : Option String :=
  match (pySplit markerStr.data content.data)[1]? with
  | none => none
  | some rest => some (String.mk ((pySplit ['"'] rest).headD []))

theorem string_data_append (s t : String) : (s ++ t).data = s.data ++ t.data := by
  cases s
  cases t
  rfl

theorem markerStr_decomp : markerStr.data = markerCoreStr.data ++ ['"'] := by decide

theorem markerStr_ne_nil : markerStr.data ≠ [] := by decide

theorem quote_not_mem_core : '"' ∉ markerCoreStr.data := by decide

/-- The marker never starts strictly inside the fixed head, even when the head
is followed by the marker itself. -/
def headNoMarkerCheck : Bool :=
  (List.range wrapperHead.data.length).all fun j =>
    !(markerStr.data.isPrefixOf (wrapperHead.data.drop j ++ markerStr.data))

theorem headNoMarkerCheck_true : headNoMarkerCheck = true := by decide

/-- The marker never occurs in the closing quote plus fixed tail. -/
theorem tailNoMarker : noOccur markerStr.data ('"' :: wrapperTail.data) = true := by decide

theorem create_wrapper_data (p : String) :
    (create_wrapper_script p).data =
      wrapperHead.data ++ (markerStr.data ++ (p.data ++ '"' :: wrapperTail.data)) := by
  show (wrapperHead ++ markerStr ++ p ++ "\"" ++ wrapperTail).data = _
  simp only [string_data_append, List.append_assoc]
  norm_num

/-- Write-then-parse round trip of the wrapper format: if the target path
contains no double quote and does not end with `script_path = `, the split
idiom recovers exactly the embedded path. -/
theorem extract_roundtrip (p : String) (hq : '"' ∉ p.data)
    (hm : markerCoreStr.data.isSuffixOf p.data = false) :
    extractScriptPath (create_wrapper_script p) = some p := by
  have hdata := create_wrapper_data p
  have hnone : firstOccur markerStr.data (p.data ++ '"' :: wrapperTail.data) = none := by
    apply firstOccur_none_of_no_prefix
    intro j
    by_cases hj : j < p.data.length
    · rw [drop_append_le p.data ('"' :: wrapperTail.data) j (Nat.le_of_lt hj)]
      refine Bool.eq_false_iff.mpr fun hb => ?_
      obtain ⟨t, ht⟩ := isPrefixOf_exists _ _ hb
      rw [markerStr_decomp, List.append_assoc] at ht
      have ht' : p.data.drop j ++ '"' :: wrapperTail.data = markerCoreStr.data ++ '"' :: t := by
        simpa using ht
      have hu : '"' ∉ p.data.drop j := fun hh => hq (List.mem_of_mem_drop hh)
      have hal := append_quote_align '"' (p.data.drop j) markerCoreStr.data
        wrapperTail.data t hu quote_not_mem_core ht'
      have hdec : p.data = p.data.take j ++ markerCoreStr.data := by
        rw [← hal, List.take_append_drop]
      exact no_decomp_of_isSuffixOf_false _ _ hm _ hdec
    · rw [drop_append_ge p.data ('"' :: wrapperTail.data) j (Nat.le_of_not_lt hj)]
      exact noOccur_drops _ _ markerStr_ne_nil tailNoMarker _
  have hfirst : firstOccur markerStr.data (create_wrapper_script p).data
      = some wrapperHead.data.length := by
    rw [hdata]
    apply firstOccur_append markerStr.data wrapperHead.data _ markerStr_ne_nil
    · intro j hjlt
      have hlen : markerStr.data.length ≤ (wrapperHead.data.drop j ++ markerStr.data).length := by
        rw [List.length_append]
        omega
      rw [← List.append_assoc, isPrefixOf_append_of_le_length _ _ _ hlen]
      have hall : ∀ x ∈ List.range wrapperHead.data.length,
          (!(markerStr.data.isPrefixOf (wrapperHead.data.drop x ++ markerStr.data))) = true := by
        have h0 := headNoMarkerCheck_true
        unfold headNoMarkerCheck at h0
        exact List.all_eq_true.mp h0
      have := hall j (List.mem_range.mpr hjlt)
      simpa using this
    · exact isPrefixOf_append_self _ _
  have hpos : 0 < (create_wrapper_script p).data.length := by
    rw [hdata, List.length_append]
    have h0 : 0 < wrapperHead.data.length := by decide
    omega
  obtain ⟨f, hf⟩ : ∃ f, (create_wrapper_script p).data.length = f + 1 :=
    ⟨(create_wrapper_script p).data.length - 1, by omega⟩
  have htake : (create_wrapper_script p).data.take wrapperHead.data.length
      = wrapperHead.data := by
    rw [hdata]
    exact List.take_left _ _
  have hdrop : (create_wrapper_script p).data.drop
      (wrapperHead.data.length + markerStr.data.length)
      = p.data ++ '"' :: wrapperTail.data := by
    rw [hdata, ← List.append_assoc, ← List.length_append]
    exact List.drop_left _ _
  have houter : pySplit markerStr.data (create_wrapper_script p).data
      = [wrapperHead.data, p.data ++ '"' :: wrapperTail.data] := by
    unfold pySplit
    rw [if_neg markerStr_ne_nil, hf]
    simp only [pySplitAux]
    rw [hfirst]
    simp only [htake, hdrop, pySplitAux_of_none _ _ _ hnone]
  have hfirstq : firstOccur ['"'] (p.data ++ '"' :: wrapperTail.data)
      = some p.data.length := by
    apply firstOccur_append _ _ _ (by simp)
    · intro j hjlt
      rw [List.drop_eq_getElem_cons hjlt, List.cons_append]
      have hc : p.data[j] ≠ '"' := by
        intro hh
        exact hq (hh ▸ List.getElem_mem hjlt)
      have hb : ('"' == p.data[j]) = false := beq_eq_false_iff_ne.mpr fun hh => hc hh.symm
      simp [List.isPrefixOf, hb]
    · simp [List.isPrefixOf]
  obtain ⟨g, hg⟩ : ∃ g, (p.data ++ '"' :: wrapperTail.data).length = g + 1 :=
    ⟨p.data.length + wrapperTail.data.length, by rw [List.length_append, List.length_cons]; omega⟩
  have htakeq : (p.data ++ '"' :: wrapperTail.data).take p.data.length = p.data :=
    List.take_left _ _
  have hinner : (pySplit ['"'] (p.data ++ '"' :: wrapperTail.data)).headD [] = p.data := by
    unfold pySplit
    rw [if_neg (by simp), hg]
    simp only [pySplitAux]
    rw [hfirstq]
    simp only [htakeq, List.headD_cons]
  unfold extractScriptPath
  rw [houter]
  simp only [List.getElem?_cons_succ, List.getElem?_cons_zero]
  rw [hinner]

theorem containsSubstr_decomp (pat s : List Char) (h : containsSubstr pat s = true) :
    ∃ u v, s = u ++ pat ++ v := by
  unfold containsSubstr at h
  obtain ⟨j, _, hpre⟩ := List.any_eq_true.mp h
  obtain ⟨t, ht⟩ := isPrefixOf_exists _ _ hpre
  refine ⟨s.take j, t, ?_⟩
  rw [List.append_assoc, ← ht, List.take_append_drop]

theorem firstOccur_some_decomp (sep s : List Char) (i : Nat)
    (h : firstOccur sep s = some i) : ∃ u v, s = u ++ sep ++ v := by
  induction s generalizing i with
  | nil => simp [firstOccur] at h
  | cons c rest ih =>
    simp only [firstOccur] at h
    by_cases hp : sep.isPrefixOf (c :: rest) = true
    · obtain ⟨t, ht⟩ := isPrefixOf_exists _ _ hp
      exact ⟨[], t, by simpa using ht⟩
    · rw [if_neg hp] at h
      cases hfo : firstOccur sep rest with
      | none => rw [hfo] at h; simp at h
      | some i' =>
        obtain ⟨u, v, huv⟩ := ih i' hfo
        exact ⟨c :: u, v, by simp [huv]⟩

/-- A wrapper whose text lacks the marker makes the extraction idiom raise
`IndexError` (`split(...)[1]` on a one-element list), modelled as `none`. -/
theorem extract_none_of_no_marker (content : String)
    (h : containsSubstr markerStr.data content.data = false) :
    extractScriptPath content = none := by
  have hfo : firstOccur markerStr.data content.data = none :=
    firstOccur_none_of_no_prefix _ _ (containsSubstr_false_not_pre _ _ markerStr_ne_nil h)
  unfold extractScriptPath pySplit
  rw [if_neg markerStr_ne_nil, pySplitAux_of_none _ _ _ hfo]
  rfl

theorem extract_some_marker (content q : String) (h : extractScriptPath content = some q) :
    containsSubstr markerStr.data content.data = true := by
  by_cases hc : containsSubstr markerStr.data content.data = true
  · exact hc
  · rw [extract_none_of_no_marker content (Bool.eq_false_iff.mpr hc)] at h
    simp at h

/-! ## Filesystem model and path constants

`FS.files` maps full paths of regular files to their contents, `FS.links`
maps symlink paths to their targets, `FS.dirs` lists existing directories and
`FS.readable` the paths `os.access(-, R_OK)` grants.  Symlink resolution is
one step (bake only ever creates links pointing at regular wrapper files). -/

structure FS where
  files : List (String × String)
  links : List (String × String)
  dirs : List String
  readable : List String

/-- os.path.isfile on the entry itself (no resolution). -/
def FS.isFile (fs : FS) (p : String) : Bool := (alookup fs.files p).isSome

def FS.isLink (fs : FS) (p : String) : Bool := (alookup fs.links p).isSome

/-- os.path.exists: true for a regular file, a symlink whose target is a
regular file, or a directory. -/
def FS.pathExists (fs : FS) (p : String) : Bool :=
  fs.isFile p
    || (match alookup fs.links p with
        | some t => fs.isFile t
        | none => false)
    || fs.dirs.contains p

/-- pathlib `Path.is_file` (resolves symlinks). -/
def FS.isFileR (fs : FS) (p : String) : Bool :=
  fs.isFile p
    || (match alookup fs.links p with
        | some t => fs.isFile t
        | none => false)

/-- `open(p).read()` (resolves symlinks); `none` models the raised `OSError`
when no regular file is reached. -/
def FS.readFile (fs : FS) (p : String) : Option String :=
  match alookup fs.files p with
  | some c => some c
  | none =>
    match alookup fs.links p with
    | some t => alookup fs.files t
    | none => none

/-- `os.remove p`: drops the directory entry at `p`, link or file. -/
def FS.removePath (fs : FS) (p : String) : FS :=
  { fs with files := aerase fs.files p, links := aerase fs.links p }

/-- `open(p, 'w'); write c`: create or truncate-and-replace. -/
def FS.writeFile (fs : FS) (p c : String) : FS :=
  { fs with files := (p, c) :: aerase fs.files p }

/-- `os.symlink target p`. -/
def FS.addLink (fs : FS) (p target : String) : FS :=
  { fs with links := (p, target) :: aerase fs.links p }

/-- `os.listdir d`: names of the entries directly inside `d`. -/
def FS.listdir (fs : FS) (d : String) : List String :=
  (fs.files.map Prod.fst ++ fs.links.map Prod.fst).filterMap fun q =>
    match stripPre (d.data ++ ['/']) q.data with
    | some r => if r.contains '/' then none else some (String.mk r)
    | none => none

/-- bake.py `safe_remove_file` (lines 84-93): remove if present, absorbing
`OSError` (the fault flag) into a `false` result. -/
def safe_remove_file (fs : FS) (p : String) (fault : Bool) : FS × Bool :=
  if fs.pathExists p = true then
    if fault then (fs, false) else (fs.removePath p, true)
  else (fs, true)

/-- bake.py `safe_remove_symlink` (lines 96-105). -/
def safe_remove_symlink (fs : FS) (p : String) (fault : Bool) : FS × Bool :=
  if (fs.pathExists p || fs.isLink p) = true then
    if fault then (fs, false) else (fs.removePath p, true)
  else (fs, true)

/-- constants.py: `USER_BIN_DIR = os.path.join(HOME, ".local", "bin")`. -/
def USER_BIN_DIR (home : String) : String := home ++ "/.local/bin"

/-- constants.py: `INSTALL_DIR = os.path.join(HOME, ".local", "lib", "bake")`. -/
def INSTALL_DIR (home : String) : String := home ++ "/.local/lib/bake"

/-- constants.py: `WRAPPER_SCRIPTS_FOLDER = os.path.join(INSTALL_DIR, "scripts")`. -/
def WRAPPER_SCRIPTS_FOLDER (home : String) : String := INSTALL_DIR home ++ "/scripts"

/-- `os.path.join` with an absolute first and relative second component. -/
def joinPath (d f : String) : String := d ++ "/" ++ f

/-- Modelled from `os.path.abspath`: an absolute input is returned unchanged,
a relative one is joined to the working directory.  Normalisation of `.`/`..`
segments is omitted; the theorems below only use absolute inputs. -/
def os_path_abspath (cwd p : String) : String :=
  if p.data.take 1 = ['/'] then p else joinPath cwd p

/-! ## Validators (bake.py lines 43-81) -/

/-- Models python `str.lower` (the names and suffixes compared are ASCII). -/
def pyLower (s : String) : String := String.mk (s.data.map Char.toLower)

/-- `Path(p).name`: the part after the last slash. -/
def lastComponent (s : List Char) : List Char :=
  s.foldl (fun acc c => if c = '/' then [] else acc ++ [c]) []

/-- Index of the first occurrence of `'.'` (used on the reversed name to model
`str.rfind('.')`). -/
def findDotIdx : List Char → Option Nat
  | [] => none
  | c :: rest => if c == '.' then some 0 else (findDotIdx rest).map (· + 1)

/-- pathlib `Path.suffix`: from the last dot `i` of the final component,
provided `0 < i < len(name) - 1`; otherwise empty. -/
def pathSuffix (p : String) : String :=
  match findDotIdx (lastComponent p.data).reverse with
  | none => ""
  | some j =>
    if 0 < (lastComponent p.data).length - 1 - j ∧
        (lastComponent p.data).length - 1 - j < (lastComponent p.data).length - 1 then
      String.mk ((lastComponent p.data).drop ((lastComponent p.data).length - 1 - j))
    else ""

def isAsciiLetter (c : Char) : Bool := ('a' ≤ c && c ≤ 'z') || ('A' ≤ c && c ≤ 'Z')

def isNameTailChar (c : Char) : Bool :=
  isAsciiLetter c || ('0' ≤ c && c ≤ '9') || c == '_' || c == '-'

/-- `re.match(r'^[a-zA-Z][a-zA-Z0-9_-]*$', s)`: python's `$` also matches just
before one final newline, so a single trailing `'\n'` is discounted first. -/
def pyMatchNameRegex (s : String) : Bool :=
  let core := if s.data.getLast? = some '\n' then s.data.dropLast else s.data
  match core with
  | [] => false
  | c :: rest => isAsciiLetter c && rest.all isNameTailChar

def reserved_names : List String :=
  ["python", "python3", "pip", "pip3", "git", "ls", "cd", "pwd", "cat",
   "grep", "find", "mkdir", "rm", "cp", "mv"]

/-- bake.py `validate_command_name` (lines 43-59). -/
def validate_command_name (name : String) : Bool × Option String :=
  if name = "" then (false, some "Command name cannot be empty")
  else if pyMatchNameRegex name = false then
    (false, some "Command name must start with a letter and contain only letters, numbers, hyphens, and underscores")
  else if pyLower name = "bake" then
    (false, some "Cannot use \"bake\" as a command name (conflicts with main script)")
  else if reserved_names.contains (pyLower name) then
    (false, some ("\"" ++ name ++ "\" is a reserved system command name"))
  else (true, none)

/-- bake.py `validate_script_path` (lines 62-81). -/
def validate_script_path (fs : FS) (script_path : String) : Bool × Option String :=
  if script_path = "" then (false, some "Script path cannot be empty")
  else if fs.pathExists script_path = false then
    (false, some ("Script not found: " ++ script_path))
  else if fs.isFileR script_path = false then
    (false, some ("Path is not a file: " ++ script_path))
  else if ([".py", ".pyw"].contains (pyLower (pathSuffix script_path))) = false then
    (false, some ("File must be a Python script (.py or .pyw), got: " ++ pathSuffix script_path))
  else if fs.readable.contains script_path = false then
    (false, some ("Cannot read file: " ++ script_path))
  else (true, none)

/-! ## add (bake.py lines 227-287) -/

structure AddFaults where
  writeWrapper : Bool
  chmodWrapper : Bool
  removeOldLink : Bool
  createLink : Bool
  rollbackRemove : Bool

def noAddFaults : AddFaults := ⟨false, false, false, false, false⟩

inductive AddResult
  | invalidName (msg : Option String)
  | invalidScript (msg : Option String)
  | uncaught
  | cancelled
  | success
  | osError
deriving DecidableEq

/-- The `except OSError` handler of `add_command`: clean up the wrapper and
report the failure. -/
def add_rollback (wrapper_path : String) (fault : Bool) (fs : FS) : FS × AddResult :=
  ((safe_remove_file fs wrapper_path fault).1, AddResult.osError)

/-- The `try` block of `add_command` (bake.py lines 266-287): write wrapper,
chmod, replace symlink; any flagged `OSError` jumps to the handler. -/
def add_try (home name script_path : String) (fl : AddFaults) (fs : FS) : FS × AddResult :=
  let wrapper_path := joinPath (WRAPPER_SCRIPTS_FOLDER home) name
  let symlink_path := joinPath (USER_BIN_DIR home) name
  if fl.writeWrapper then
    add_rollback wrapper_path fl.rollbackRemove (fs.writeFile wrapper_path "")
  else
    let fs1 := fs.writeFile wrapper_path (create_wrapper_script script_path)
    if fl.chmodWrapper then add_rollback wrapper_path fl.rollbackRemove fs1
    else
      let fs2 :=
        if fs1.pathExists symlink_path then
          (safe_remove_symlink fs1 symlink_path fl.removeOldLink).1
        else fs1
      if (fs2.pathExists symlink_path || fs2.isLink symlink_path) then
        add_rollback wrapper_path fl.rollbackRemove fs2
      else if fl.createLink then add_rollback wrapper_path fl.rollbackRemove fs2
      else (fs2.addLink symlink_path wrapper_path, AddResult.success)

/-- bake.py `add_command` (lines 227-287).  `userInput` is the overwrite
confirmation answer; the preview read at lines 254-259 happens outside the
`try`, so its `IndexError`/`OSError` escapes (`AddResult.uncaught`). -/
def add_command (home cwd name script_arg : String) (force : Bool) (userInput : String)
    (fl : AddFaults) (fs : FS) : FS × AddResult :=
  if (validate_command_name name).1 = false then
    (fs, AddResult.invalidName (validate_command_name name).2)
  else
    let script_path := os_path_abspath cwd script_arg
    if (validate_script_path fs script_path).1 = false then
      (fs, AddResult.invalidScript (validate_script_path fs script_path).2)
    else
      let wrapper_path := joinPath (WRAPPER_SCRIPTS_FOLDER home) name
      let symlink_path := joinPath (USER_BIN_DIR home) name
      if (fs.pathExists wrapper_path || fs.pathExists symlink_path) && !force then
        if fs.pathExists wrapper_path then
          match (fs.readFile wrapper_path).bind extractScriptPath with
          | none => (fs, AddResult.uncaught)
          | some _ =>
            if pyLower userInput = "y" then add_try home name script_path fl fs
            else (fs, AddResult.cancelled)
        else
          if pyLower userInput = "y" then add_try home name script_path fl fs
          else (fs, AddResult.cancelled)
      else add_try home name script_path fl fs

/-! ## delete (bake.py lines 301-318) -/

structure DeleteFaults where
  removeLink : Bool
  removeWrapper : Bool

inductive DeleteResult
  | notFound
  | success
  | incomplete
deriving DecidableEq

/-- bake.py `delete_command`: both removals are attempted unconditionally;
full success only when both succeeded. -/
def delete_command (home name : String) (fl : DeleteFaults) (fs : FS) : FS × DeleteResult :=
  let wrapper_path := joinPath (WRAPPER_SCRIPTS_FOLDER home) name
  let symlink_path := joinPath (USER_BIN_DIR home) name
  if fs.pathExists wrapper_path = false then (fs, DeleteResult.notFound)
  else
    let r1 := safe_remove_symlink fs symlink_path fl.removeLink
    let r2 := safe_remove_file r1.1 wrapper_path fl.removeWrapper
    if r1.2 && r2.2 then (r2.1, DeleteResult.success) else (r2.1, DeleteResult.incomplete)

/-! ## rename (bake.py lines 321-391) -/

structure RenameFaults where
  readOld : Bool
  writeNew : Bool
  chmodNew : Bool
  removeNewLink : Bool
  createNewLink : Bool
  removeOldLink : Bool
  removeOldWrapper : Bool
  rollbackRemoveWrapper : Bool
  rollbackRemoveLink : Bool

def noRenameFaults : RenameFaults :=
  ⟨false, false, false, false, false, false, false, false, false⟩

inductive RenameResult
  | invalidName (msg : Option String)
  | sameName
  | notFound
  | uncaught
  | cancelled
  | renamed
  | renameFailed
deriving DecidableEq

/-- The `except Exception` handler of `rename_command` (lines 387-391): remove
the partially created new wrapper and new symlink. -/
def rename_rollback (new_w new_s : String) (rbW rbL : Bool) (fs : FS) : FS × RenameResult :=
  let r1 := safe_remove_file fs new_w rbW
  let r2 := safe_remove_symlink r1.1 new_s rbL
  (r2.1, RenameResult.renameFailed)

/-- The `try` block of `rename_command` (lines 361-385): read the old wrapper,
write the new one, chmod, replace the new symlink, then tear down the old
entry (those two teardown results are ignored by the source). -/
def rename_try (old_w old_s new_w new_s : String) (fl : RenameFaults) (fs : FS) :
    FS × RenameResult :=
  if fl.readOld then
    rename_rollback new_w new_s fl.rollbackRemoveWrapper fl.rollbackRemoveLink fs
  else
    match (fs.readFile old_w).bind extractScriptPath with
    | none => rename_rollback new_w new_s fl.rollbackRemoveWrapper fl.rollbackRemoveLink fs
    | some sp =>
      if fl.writeNew then
        rename_rollback new_w new_s fl.rollbackRemoveWrapper fl.rollbackRemoveLink
          (fs.writeFile new_w "")
      else
        let fs1 := fs.writeFile new_w (create_wrapper_script sp)
        if fl.chmodNew then
          rename_rollback new_w new_s fl.rollbackRemoveWrapper fl.rollbackRemoveLink fs1
        else
          let fs2 :=
            if fs1.pathExists new_s then
              (safe_remove_symlink fs1 new_s fl.removeNewLink).1
            else fs1
          if (fs2.pathExists new_s || fs2.isLink new_s) then
            rename_rollback new_w new_s fl.rollbackRemoveWrapper fl.rollbackRemoveLink fs2
          else if fl.createNewLink then
            rename_rollback new_w new_s fl.rollbackRemoveWrapper fl.rollbackRemoveLink fs2
          else
            let fs3 := fs2.addLink new_s new_w
            let fs4 := (safe_remove_symlink fs3 old_s fl.removeOldLink).1
            let fs5 := (safe_remove_file fs4 old_w fl.removeOldWrapper).1
            (fs5, RenameResult.renamed)

/-- bake.py `rename_command` (lines 321-391).  Validation of the new name
comes first, then the same-name check, then the old-existence check, then the
overwrite confirmation (whose preview read is outside the `try`). -/
def rename_command (home old_name new_name : String) (force : Bool) (userInput : String)
    (fl : RenameFaults) (fs : FS) : FS × RenameResult :=
  if (validate_command_name new_name).1 = false then
    (fs, RenameResult.invalidName (validate_command_name new_name).2)
  else if old_name = new_name then (fs, RenameResult.sameName)
  else
    let old_w := joinPath (WRAPPER_SCRIPTS_FOLDER home) old_name
    let old_s := joinPath (USER_BIN_DIR home) old_name
    let new_w := joinPath (WRAPPER_SCRIPTS_FOLDER home) new_name
    let new_s := joinPath (USER_BIN_DIR home) new_name
    if fs.pathExists old_w = false then (fs, RenameResult.notFound)
    else if (fs.pathExists new_w || fs.pathExists new_s) && !force then
      if fs.pathExists new_w then
        match (fs.readFile new_w).bind extractScriptPath with
        | none => (fs, RenameResult.uncaught)
        | some _ =>
          if pyLower userInput = "y" then rename_try old_w old_s new_w new_s fl fs
          else (fs, RenameResult.cancelled)
      else
        if pyLower userInput = "y" then rename_try old_w old_s new_w new_s fl fs
        else (fs, RenameResult.cancelled)
    else rename_try old_w old_s new_w new_s fl fs

/-! ## list (bake.py lines 635-660) -/

/-- The row-building loop: the first entry that raises (missing marker, or an
unreadable wrapper) aborts the whole listing. -/
def optMapList {α β : Type} (g : α → Option β) : List α → Option (List β)
  | [] => some []
  | a :: l =>
    match g a, optMapList g l with
    | some b, some bs => some (b :: bs)
    | _, _ => none

/-- python `sorted` on strings: stable, code-point lexicographic. -/
def sortStrings (l : List String) : List String := l.insertionSort (· ≤ ·)

inductive ListResult
  | missingFolder
  | noCommands
  | table (rows : List (String × String))
  | uncaught
deriving DecidableEq

/-- bake.py `list_commands`: missing folder and empty folder short-circuit
with messages only; otherwise one `(name, targetPath)` row per sorted entry.
An entry whose wrapper cannot be read or lacks the marker raises, so the
whole listing fails (`ListResult.uncaught`). -/
def list_commands (home : String) (fs : FS) : ListResult :=
  if fs.pathExists (WRAPPER_SCRIPTS_FOLDER home) = false then ListResult.missingFolder
  else
    let commands := fs.listdir (WRAPPER_SCRIPTS_FOLDER home)
    if commands.isEmpty then ListResult.noCommands
    else
      match optMapList (fun cmd =>
          match (fs.readFile (joinPath (WRAPPER_SCRIPTS_FOLDER home) cmd)).bind
              extractScriptPath with
          | some sp => some (cmd, sp)
          | none => none) (sortStrings commands) with
      | some rows => ListResult.table rows
      | none => ListResult.uncaught

/-! ## Path arithmetic -/

theorem string_data_inj (a b : String) (h : a.data = b.data) : a = b := by
  cases a
  cases b
  exact congrArg String.mk h

theorem wrapper_dir_data (home : String) :
    (WRAPPER_SCRIPTS_FOLDER home).data = home.data ++ "/.local/lib/bake/scripts".data := by
  show ((home ++ "/.local/lib/bake") ++ "/scripts").data = _
  simp [string_data_append, List.append_assoc]

theorem wrapper_join_data (home a : String) :
    (joinPath (WRAPPER_SCRIPTS_FOLDER home) a).data
      = home.data ++ ("/.local/lib/bake/scripts/".data ++ a.data) := by
  show (((home ++ "/.local/lib/bake") ++ "/scripts") ++ "/" ++ a).data = _
  simp [string_data_append, List.append_assoc]

theorem bin_join_data (home a : String) :
    (joinPath (USER_BIN_DIR home) a).data
      = home.data ++ ("/.local/bin/".data ++ a.data) := by
  show ((home ++ "/.local/bin") ++ "/" ++ a).data = _
  simp [string_data_append, List.append_assoc]

theorem joinPath_inj (d a b : String) (h : joinPath d a = joinPath d b) : a = b := by
  apply string_data_inj
  have hd := congrArg String.data h
  simp only [joinPath, string_data_append, List.append_assoc] at hd
  exact List.append_cancel_left (List.append_cancel_left hd)

theorem append_ne_of_getElem_ne (u v x y : List Char) (i : Nat)
    (hu : i < u.length) (hv : i < v.length) (hne : u[i]? ≠ v[i]?) : u ++ x ≠ v ++ y := by
  intro h
  have hi := congrArg (fun l => l[i]?) h
  simp only at hi
  rw [List.getElem?_append_left hu, List.getElem?_append_left hv] at hi
  exact hne hi

theorem append_ne_of_length_gt (u v x : List Char) (h : v.length < u.length) : u ++ x ≠ v := by
  intro hh
  have hl := congrArg List.length hh
  rw [List.length_append] at hl
  omega

theorem bin_ne_wrapper (home a b : String) :
    joinPath (USER_BIN_DIR home) a ≠ joinPath (WRAPPER_SCRIPTS_FOLDER home) b := by
  intro h
  have hd := congrArg String.data h
  rw [bin_join_data, wrapper_join_data] at hd
  have hc := List.append_cancel_left hd
  exact append_ne_of_getElem_ne "/.local/bin/".data "/.local/lib/bake/scripts/".data
    a.data b.data 8 (by decide) (by decide) (by decide) hc

theorem bin_join_ne_wrapper_dir (home a : String) :
    joinPath (USER_BIN_DIR home) a ≠ WRAPPER_SCRIPTS_FOLDER home := by
  intro h
  have hd := congrArg String.data h
  rw [bin_join_data, wrapper_dir_data] at hd
  have hc := List.append_cancel_left hd
  have hc2 : "/.local/bin/".data ++ a.data = "/.local/lib/bake/scripts".data ++ [] := by
    rw [List.append_nil]
    exact hc
  exact append_ne_of_getElem_ne "/.local/bin/".data "/.local/lib/bake/scripts".data
    a.data [] 8 (by decide) (by decide) (by decide) hc2

theorem wrapper_join_ne_dir (home a : String) :
    joinPath (WRAPPER_SCRIPTS_FOLDER home) a ≠ WRAPPER_SCRIPTS_FOLDER home := by
  intro h
  have hd := congrArg String.data h
  rw [wrapper_join_data, wrapper_dir_data] at hd
  have hc := List.append_cancel_left hd
  exact append_ne_of_length_gt "/.local/lib/bake/scripts/".data
    "/.local/lib/bake/scripts".data a.data (by decide) hc

theorem stripPre_wrapper_join (home name : String) :
    stripPre ((WRAPPER_SCRIPTS_FOLDER home).data ++ ['/'])
      (joinPath (WRAPPER_SCRIPTS_FOLDER home) name).data = some name.data := by
  have hj : (joinPath (WRAPPER_SCRIPTS_FOLDER home) name).data
      = ((WRAPPER_SCRIPTS_FOLDER home).data ++ ['/']) ++ name.data := by
    show ((WRAPPER_SCRIPTS_FOLDER home ++ "/") ++ name).data = _
    simp [string_data_append, List.append_assoc]
  rw [hj, stripPre_append]

theorem stripPre_bin_none (home a : String) :
    stripPre ((WRAPPER_SCRIPTS_FOLDER home).data ++ ['/'])
      (joinPath (USER_BIN_DIR home) a).data = none := by
  cases hsp : stripPre ((WRAPPER_SCRIPTS_FOLDER home).data ++ ['/'])
      (joinPath (USER_BIN_DIR home) a).data with
  | none => rfl
  | some r =>
    exfalso
    have hdec := stripPre_some _ _ _ hsp
    rw [bin_join_data, wrapper_dir_data] at hdec
    simp only [List.append_assoc] at hdec
    have hc := List.append_cancel_left hdec
    exact append_ne_of_getElem_ne "/.local/bin/".data "/.local/lib/bake/scripts".data
      a.data (['/'] ++ r) 8 (by decide) (by decide) (by decide) hc

/-! ## Validator consequences -/

theorem validate_name_unfold (name : String) (h : (validate_command_name name).1 = true) :
    name ≠ "" ∧ pyMatchNameRegex name = true ∧ pyLower name ≠ "bake" ∧
      pyLower name ∉ reserved_names := by
  by_cases h1 : name = ""
  · simp [validate_command_name, h1] at h
  · by_cases h2 : pyMatchNameRegex name = false
    · simp [validate_command_name, h1, h2] at h
    · by_cases h3 : pyLower name = "bake"
      · simp [validate_command_name, h1, h2, h3] at h
      · by_cases h4 : pyLower name ∈ reserved_names
        · simp [validate_command_name, h1, h2, h3, h4] at h
        · refine ⟨h1, ?_, h3, h4⟩
          cases hb : pyMatchNameRegex name with
          | true => rfl
          | false => exact absurd hb h2

theorem validate_name_of_parts (name : String) (h2 : pyMatchNameRegex name = true)
    (h3 : pyLower name ≠ "bake")
    (h4 : pyLower name ∉ reserved_names) :
    (validate_command_name name).1 = true := by
  have h1 : name ≠ "" := by
    intro hh
    rw [hh] at h2
    exact absurd h2 (by decide)
  simp [validate_command_name, h1, h2, h3, h4]

theorem validate_script_unfold (fs : FS) (p : String)
    (h : (validate_script_path fs p).1 = true) :
    p ≠ "" ∧ fs.pathExists p = true ∧ fs.isFileR p = true ∧
      (pyLower (pathSuffix p) = ".py" ∨ pyLower (pathSuffix p) = ".pyw") ∧
      p ∈ fs.readable := by
  by_cases h1 : p = ""
  · simp [validate_script_path, h1] at h
  · by_cases h2 : fs.pathExists p = false
    · simp [validate_script_path, h1, h2] at h
    · by_cases h3 : fs.isFileR p = false
      · simp [validate_script_path, h1, h2, h3] at h
      · by_cases h4 : pyLower (pathSuffix p) = ".py" ∨ pyLower (pathSuffix p) = ".pyw"
        · by_cases h5 : p ∈ fs.readable
          · refine ⟨h1, ?_, ?_, h4, h5⟩
            · cases hb : fs.pathExists p with
              | true => rfl
              | false => exact absurd hb h2
            · cases hb : fs.isFileR p with
              | true => rfl
              | false => exact absurd hb h3
          · simp [validate_script_path, h1, h2, h3, h4, h5] at h
        · have h4' : ¬ pyLower (pathSuffix p) = ".py" ∧ ¬ pyLower (pathSuffix p) = ".pyw" := by
            constructor <;> intro hh <;> exact h4 (by simp [hh])
          simp [validate_script_path, h1, h2, h3, h4'.1, h4'.2] at h

theorem mem_of_getLast?_eq (l : List Char) (c : Char) (h : l.getLast? = some c) : c ∈ l := by
  induction l with
  | nil => simp at h
  | cons a l ih =>
    cases l with
    | nil =>
      simp only [List.getLast?_singleton, Option.some_inj] at h
      simp [h]
    | cons b l' =>
      rw [List.getLast?_cons_cons] at h
      exact List.mem_cons_of_mem a (ih h)

theorem eq_dropLast_append_of_getLast? (l : List Char) (c : Char)
    (h : l.getLast? = some c) : l = l.dropLast ++ [c] := by
  induction l with
  | nil => simp at h
  | cons a l ih =>
    cases l with
    | nil =>
      simp only [List.getLast?_singleton, Option.some_inj] at h
      simp [h]
    | cons b l' =>
      rw [List.getLast?_cons_cons] at h
      have := ih h
      rw [List.dropLast_cons₂, List.cons_append, ← this]

/-- Every character of a name accepted by the regex is a name character or
the single discounted trailing newline. -/
theorem pyMatch_chars (name : String) (h : pyMatchNameRegex name = true) (c : Char)
    (hc : c ∈ name.data) : isNameTailChar c = true ∨ c = '\n' := by
  unfold pyMatchNameRegex at h
  by_cases hl : name.data.getLast? = some '\n'
  · rw [if_pos hl] at h
    have hsplit := eq_dropLast_append_of_getLast? _ _ hl
    rw [hsplit] at hc
    rcases List.mem_append.mp hc with hc1 | hc2
    · cases hd : name.data.dropLast with
      | nil => rw [hd] at hc1; simp at hc1
      | cons c0 rest =>
        rw [hd] at h hc1
        simp only [Bool.and_eq_true] at h
        rcases List.mem_cons.mp hc1 with rfl | hmem
        · exact Or.inl (by simp [isNameTailChar, h.1])
        · exact Or.inl (List.all_eq_true.mp h.2 c hmem)
    · simp at hc2
      exact Or.inr hc2
  · rw [if_neg hl] at h
    cases hd : name.data with
    | nil => rw [hd] at hc; simp at hc
    | cons c0 rest =>
      rw [hd] at h hc
      simp only [Bool.and_eq_true] at h
      rcases List.mem_cons.mp hc with rfl | hmem
      · exact Or.inl (by simp [isNameTailChar, h.1])
      · exact Or.inl (List.all_eq_true.mp h.2 c hmem)

theorem pyMatch_not_mem (name : String) (h : pyMatchNameRegex name = true) (c : Char)
    (h1 : isNameTailChar c = false) (h2 : c ≠ '\n') : c ∉ name.data := by
  intro hc
  rcases pyMatch_chars name h c hc with ht | hn
  · rw [h1] at ht
    exact Bool.false_ne_true ht
  · exact h2 hn

/-! ## lastComponent / pathSuffix facts -/

theorem lastComponent_foldl_aux (s acc : List Char) :
    ∃ u, acc ++ s = u ++ s.foldl (fun a c => if c = '/' then [] else a ++ [c]) acc := by
  induction s generalizing acc with
  | nil => exact ⟨[], by simp⟩
  | cons c s ih =>
    by_cases hc : c = '/'
    · obtain ⟨u', hu'⟩ := ih ([] : List Char)
      simp only [List.nil_append] at hu'
      refine ⟨acc ++ [c] ++ u', ?_⟩
      simp only [List.foldl_cons, if_pos hc]
      conv_lhs => rw [show acc ++ c :: s = (acc ++ [c]) ++ s from by simp, hu']
      simp [List.append_assoc]
    · obtain ⟨u', hu'⟩ := ih (acc ++ [c])
      refine ⟨u', ?_⟩
      simp only [List.foldl_cons, if_neg hc]
      rw [← hu']
      simp

theorem lastComponent_decomp (s : List Char) : ∃ u, s = u ++ lastComponent s := by
  obtain ⟨u, hu⟩ := lastComponent_foldl_aux s []
  exact ⟨u, by simpa using hu⟩

theorem lastComponent_no_slash_aux (v acc : List Char) (h : '/' ∉ v) :
    v.foldl (fun a c => if c = '/' then [] else a ++ [c]) acc = acc ++ v := by
  induction v generalizing acc with
  | nil => simp
  | cons c v ih =>
    have hc : c ≠ '/' := fun hh => h (hh ▸ List.mem_cons_self c v)
    have hv : '/' ∉ v := fun hh => h (List.mem_cons_of_mem c hh)
    simp only [List.foldl_cons, if_neg hc]
    rw [ih _ hv]
    simp

theorem lastComponent_no_slash (v : List Char) (h : '/' ∉ v) : lastComponent v = v := by
  unfold lastComponent
  rw [lastComponent_no_slash_aux v [] h]
  simp

theorem lastComponent_append_slash (u v : List Char) :
    lastComponent (u ++ '/' :: v) = lastComponent v := by
  unfold lastComponent
  rw [List.foldl_append, List.foldl_cons]
  simp

theorem findDotIdx_some_dot (l : List Char) (j : Nat)
    (h : findDotIdx l = some j) : '.' ∈ l := by
  induction l generalizing j with
  | nil => simp [findDotIdx] at h
  | cons a l ih =>
    simp only [findDotIdx] at h
    by_cases hp : (a == '.') = true
    · have : a = '.' := by simpa using hp
      simp [this]
    · rw [if_neg hp] at h
      cases hfo : findDotIdx l with
      | none => rw [hfo] at h; simp at h
      | some j' => exact List.mem_cons_of_mem a (ih j' hfo)

theorem isSuffixOf_exists (l s : List Char) (h : l.isSuffixOf s = true) :
    ∃ v, s = v ++ l := by
  unfold List.isSuffixOf at h
  obtain ⟨t, ht⟩ := isPrefixOf_exists _ _ h
  refine ⟨t.reverse, ?_⟩
  have := congrArg List.reverse ht
  simpa using this

theorem pathSuffix_of_findIdx_none (p : String)
    (hf : findDotIdx (lastComponent p.data).reverse = none) :
    pathSuffix p = "" := by
  unfold pathSuffix
  rw [hf]

theorem pathSuffix_of_findIdx_some (p : String) (j : Nat)
    (hf : findDotIdx (lastComponent p.data).reverse = some j) :
    pathSuffix p =
      if 0 < (lastComponent p.data).length - 1 - j ∧
          (lastComponent p.data).length - 1 - j < (lastComponent p.data).length - 1 then
        String.mk ((lastComponent p.data).drop ((lastComponent p.data).length - 1 - j))
      else "" := by
  unfold pathSuffix
  rw [hf]

/-- A `.py`/`.pyw` suffix fixes the final character of the path up to case. -/
theorem suffix_py_last_char (p : String)
    (h : pyLower (pathSuffix p) = ".py" ∨ pyLower (pathSuffix p) = ".pyw") :
    ∃ c, p.data.getLast? = some c ∧ (Char.toLower c = 'y' ∨ Char.toLower c = 'w') := by
  have hne : pathSuffix p ≠ "" := by
    intro hh
    rw [hh] at h
    rcases h with h | h <;> exact absurd h (by decide)
  cases hf : findDotIdx (lastComponent p.data).reverse with
  | none => rw [pathSuffix_of_findIdx_none p hf] at hne; exact absurd rfl hne
  | some j =>
    rw [pathSuffix_of_findIdx_some p j hf] at h hne
    by_cases hcond : 0 < (lastComponent p.data).length - 1 - j ∧
        (lastComponent p.data).length - 1 - j < (lastComponent p.data).length - 1
    · rw [if_pos hcond] at h
      have hlast : ∀ c, ((lastComponent p.data).drop
          ((lastComponent p.data).length - 1 - j)).getLast? = some c →
          p.data.getLast? = some c := by
        intro c hc
        have hdropne : (lastComponent p.data).drop
            ((lastComponent p.data).length - 1 - j) ≠ [] := by
          intro hh
          rw [hh] at hc
          simp at hc
        have hname : (lastComponent p.data).getLast? = some c := by
          conv_lhs =>
            rw [← List.take_append_drop ((lastComponent p.data).length - 1 - j)
              (lastComponent p.data)]
          rw [List.getLast?_append_of_ne_nil _ hdropne]
          exact hc
        obtain ⟨u, hu⟩ := lastComponent_decomp p.data
        have hlcne : lastComponent p.data ≠ [] := by
          intro hh
          rw [hh] at hdropne
          simp at hdropne
        rw [hu, List.getLast?_append_of_ne_nil _ hlcne]
        exact hname
      rcases h with h | h
      · have hmap := congrArg String.data h
        simp only [pyLower] at hmap
        rcases hd : (lastComponent p.data).drop ((lastComponent p.data).length - 1 - j) with
          _ | ⟨a, _ | ⟨b, _ | ⟨c3, _ | rest⟩⟩⟩ <;> rw [hd] at hmap <;> simp at hmap
        refine ⟨c3, hlast c3 (by rw [hd]; rfl), Or.inl ?_⟩
        exact hmap.2.2
      · have hmap := congrArg String.data h
        simp only [pyLower] at hmap
        rcases hd : (lastComponent p.data).drop ((lastComponent p.data).length - 1 - j) with
          _ | ⟨a, _ | ⟨b, _ | ⟨c3, _ | ⟨c4, _ | rest⟩⟩⟩⟩ <;> rw [hd] at hmap <;> simp at hmap
        refine ⟨c4, hlast c4 (by rw [hd]; rfl), Or.inr ?_⟩
        exact hmap.2.2.2
    · rw [if_neg hcond] at hne
      exact absurd rfl hne

/-- A path that validates as a python script cannot end with `script_path = `:
its last character lowercases to `y` or `w`, not a space. -/
theorem valid_script_not_marker_end (fs : FS) (p : String)
    (h : (validate_script_path fs p).1 = true) :
    markerCoreStr.data.isSuffixOf p.data = false := by
  obtain ⟨-, -, -, hsuf, -⟩ := validate_script_unfold fs p h
  obtain ⟨c, hc, hcy⟩ := suffix_py_last_char p hsuf
  cases hs : markerCoreStr.data.isSuffixOf p.data with
  | false => rfl
  | true =>
    exfalso
    obtain ⟨v, hv⟩ := isSuffixOf_exists _ _ hs
    have hsp : p.data.getLast? = some ' ' := by
      rw [hv, List.getLast?_append_of_ne_nil _ (by decide)]
      decide
    rw [hsp] at hc
    have : c = ' ' := by simpa using hc.symm
    rw [this] at hcy
    rcases hcy with hh | hh <;> exact absurd hh (by decide)

/-! ## optMapList and counting lemmas -/

theorem optMapList_none {α β : Type} (g : α → Option β) (l : List α) (a : α)
    (ha : a ∈ l) (hga : g a = none) : optMapList g l = none := by
  induction l with
  | nil => simp at ha
  | cons b l ih =>
    rcases List.mem_cons.mp ha with rfl | hmem
    · simp [optMapList, hga]
    · simp only [optMapList, ih hmem]
      cases g b <;> rfl

theorem optMapList_fst {α β : Type} (g : α → Option (α × β)) (l : List α)
    (rows : List (α × β)) (hshape : ∀ a b, g a = some b → b.1 = a)
    (h : optMapList g l = some rows) : rows.map Prod.fst = l := by
  induction l generalizing rows with
  | nil =>
    simp only [optMapList, Option.some_inj] at h
    rw [← h]
    rfl
  | cons a l ih =>
    simp only [optMapList] at h
    cases hga : g a with
    | none => rw [hga] at h; simp at h
    | some b =>
      rw [hga] at h
      cases hrest : optMapList g l with
      | none => rw [hrest] at h; simp at h
      | some bs =>
        rw [hrest] at h
        simp only [Option.some_inj] at h
        rw [← h, List.map_cons, ih bs hrest, hshape a b hga]

theorem optMapList_some_of_all {α β : Type} (g : α → Option β) (l : List α)
    (h : ∀ a ∈ l, (g a).isSome = true) : ∃ rows, optMapList g l = some rows := by
  induction l with
  | nil => exact ⟨[], rfl⟩
  | cons a l ih =>
    obtain ⟨rows, hrows⟩ := ih fun x hx => h x (List.mem_cons_of_mem a hx)
    have ha := h a (List.mem_cons_self a l)
    cases hga : g a with
    | none => rw [hga] at ha; simp at ha
    | some b => exact ⟨b :: rows, by simp [optMapList, hga, hrows]⟩

theorem optMapList_mem {α β : Type} (g : α → Option β) (l : List α)
    (rows : List β) (h : optMapList g l = some rows) (a : α) (b : β)
    (ha : a ∈ l) (hab : g a = some b) : b ∈ rows := by
  induction l generalizing rows with
  | nil => simp at ha
  | cons x l ih =>
    simp only [optMapList] at h
    cases hgx : g x with
    | none => rw [hgx] at h; simp at h
    | some bx =>
      rw [hgx] at h
      cases hrest : optMapList g l with
      | none => rw [hrest] at h; simp at h
      | some bs =>
        rw [hrest] at h
        simp only [Option.some_inj] at h
        rcases List.mem_cons.mp ha with rfl | hmem
        · rw [hab] at hgx
          have hb : b = bx := Option.some_inj.mp hgx
          rw [← h, hb]
          exact List.mem_cons_self bx bs
        · rw [← h]
          exact List.mem_cons_of_mem bx (ih bs hrest hmem)

theorem count_pair_of_fst_count {α β : Type} [DecidableEq α] [DecidableEq β]
    (rows : List (α × β)) (x : α) (y : β)
    (hcount : (rows.map Prod.fst).count x = 1) (hmem : (x, y) ∈ rows) :
    rows.count (x, y) = 1 := by
  induction rows with
  | nil => simp at hmem
  | cons e rows ih =>
    rw [List.map_cons, List.count_cons] at hcount
    rw [List.count_cons]
    by_cases hex : e.1 = x
    · have h0 : (rows.map Prod.fst).count x = 0 := by
        rw [if_pos (beq_iff_eq.mpr hex)] at hcount
        omega
      have hnotin : (x, y) ∉ rows := by
        intro hin
        have hx : x ∈ rows.map Prod.fst := List.mem_map.mpr ⟨(x, y), hin, rfl⟩
        rw [List.count_eq_zero] at h0
        exact h0 hx
      have he : e = (x, y) := by
        rcases List.mem_cons.mp hmem with h | h
        · exact h.symm
        · exact absurd h hnotin
      rw [List.count_eq_zero.mpr hnotin, if_pos (beq_iff_eq.mpr he)]
    · have he : ¬ e = (x, y) := fun hh => hex (by rw [hh])
      rw [if_neg (fun hh => hex (beq_iff_eq.mp hh))] at hcount
      have hmem2 : (x, y) ∈ rows := by
        rcases List.mem_cons.mp hmem with h | h
        · exact absurd h.symm he
        · exact h
      rw [ih (by omega) hmem2, if_neg (fun hh => he (beq_iff_eq.mp hh))]

theorem FS.pathExists_of_isFile (fs : FS) (p : String) (h : fs.isFile p = true) :
    fs.pathExists p = true := by
  unfold FS.pathExists
  rw [h]
  rfl

theorem pathExists_false_parts (fs : FS) (p : String) (h : fs.pathExists p = false) :
    fs.isFile p = false ∧ fs.dirs.contains p = false := by
  unfold FS.pathExists at h
  constructor
  · cases hb : fs.isFile p with
    | false => rfl
    | true => rw [hb] at h; simp at h
  · cases hb : fs.dirs.contains p with
    | false => rfl
    | true => rw [hb] at h; simp at h

theorem isFile_false_alookup (fs : FS) (p : String) (h : fs.isFile p = false) :
    alookup fs.files p = none := by
  unfold FS.isFile at h
  cases hb : alookup fs.files p with
  | none => rfl
  | some v => rw [hb] at h; simp at h

theorem isLink_false_alookup (fs : FS) (p : String) (h : fs.isLink p = false) :
    alookup fs.links p = none := by
  unfold FS.isLink at h
  cases hb : alookup fs.links p with
  | none => rfl
  | some v => rw [hb] at h; simp at h

theorem join_data_pre (d name : String) :
    (joinPath d name).data = (d.data ++ ['/']) ++ name.data := by
  show ((d ++ "/") ++ name).data = _
  simp [string_data_append, List.append_assoc]

theorem mem_listdir_decomp (fs : FS) (d x : String) (hx : x ∈ fs.listdir d) :
    ∃ q, q ∈ fs.files.map Prod.fst ++ fs.links.map Prod.fst ∧
      q.data = (d.data ++ ['/']) ++ x.data ∧ x.data.contains '/' = false := by
  unfold FS.listdir at hx
  obtain ⟨q, hq, hfq⟩ := List.mem_filterMap.mp hx
  cases hsp : stripPre (d.data ++ ['/']) q.data with
  | none => rw [hsp] at hfq; simp at hfq
  | some r =>
    rw [hsp] at hfq
    have hfq2 : (if r.contains '/' = true then none else some (String.mk r)) = some x := hfq
    by_cases hsl : r.contains '/' = true
    · rw [if_pos hsl] at hfq2
      simp at hfq2
    · rw [if_neg hsl] at hfq2
      have hx2 : x = String.mk r := (Option.some_inj.mp hfq2).symm
      have hxd : x.data = r := by rw [hx2]
      refine ⟨q, hq, ?_, ?_⟩
      · rw [stripPre_some _ _ _ hsp, hxd]
      · rw [hxd]
        cases hb : r.contains '/' with
        | false => rfl
        | true => exact absurd hb hsl

theorem mem_listdir_of (fs : FS) (d x q : String)
    (hq : q ∈ fs.files.map Prod.fst ++ fs.links.map Prod.fst)
    (hdec : q.data = (d.data ++ ['/']) ++ x.data)
    (hsl : x.data.contains '/' = false) : x ∈ fs.listdir d := by
  unfold FS.listdir
  apply List.mem_filterMap.mpr
  refine ⟨q, hq, ?_⟩
  show (match stripPre (d.data ++ ['/']) q.data with
    | some r => if r.contains '/' = true then none else some (String.mk r)
    | none => none) = some x
  rw [hdec, stripPre_append]
  show (if x.data.contains '/' = true then none else some (String.mk x.data)) = some x
  rw [if_neg (by rw [hsl]; exact Bool.false_ne_true)]

/-! ## Claim C3: write-then-parse round trip of the wrapper format -/

/-- C3 (corrected): for every target path containing no double quote and not
ending with the fourteen characters `script_path = `, the extraction idiom
`content.split('script_path = "')[1].split('"')[0]` applied to
`create_wrapper_script p` yields exactly `p`; the renderer is a pure function
of `p`, hence deterministic.  (As stated the claim fails for quote-free paths
ending in `script_path = `, see the counterexample.) -/
theorem c3_wrapper_roundtrip (p : String) (hq : '"' ∉ p.data)
    (hm : markerCoreStr.data.isSuffixOf p.data = false) :
    extractScriptPath (create_wrapper_script p) = some p :=
  extract_roundtrip p hq hm

set_option maxHeartbeats 4000000 in
/-- C3 counterexample: `/tmp/script_path = ` contains no double quote, yet the
split-based extraction returns `/tmp/` because the rendered text
`script_path = "/tmp/script_path = "` contains the split marker twice. -/
theorem c3_counterexample :
    ('"' ∉ "/tmp/script_path = ".data) ∧
      extractScriptPath (create_wrapper_script "/tmp/script_path = ")
        ≠ some "/tmp/script_path = " := by
  constructor
  · decide
  · decide

set_option maxHeartbeats 4000000 in
/-- C3 witness: the round trip at a concrete well-formed path. -/
theorem c3_witness :
    ('"' ∉ "/home/u/greet.py".data) ∧
      markerCoreStr.data.isSuffixOf "/home/u/greet.py".data = false ∧
      extractScriptPath (create_wrapper_script "/home/u/greet.py")
        = some "/home/u/greet.py" :=
  ⟨by decide, by decide, c3_wrapper_roundtrip "/home/u/greet.py" (by decide) (by decide)⟩

/-! ## Claim C10: the extraction is partial; a marker-less wrapper kills List -/

/-- C10 (corrected): the extraction returns a path exactly when the wrapper
text contains the marker `script_path = "` (no quote is needed after it); a
wrapper lacking the marker makes the extraction raise `IndexError` (`none`),
and a single such file in the scripts directory makes `list_commands` fail as
a whole instead of skipping the entry. -/
theorem c10_extraction_partial :
    (∀ content : String, containsSubstr markerStr.data content.data = false →
        extractScriptPath content = none) ∧
    (∀ content q : String, extractScriptPath content = some q →
        ∃ u v, content.data = u ++ markerStr.data ++ v) ∧
    (∀ (home name content : String) (fs : FS),
        alookup fs.files (joinPath (WRAPPER_SCRIPTS_FOLDER home) name) = some content →
        containsSubstr markerStr.data content.data = false →
        name.data.contains '/' = false →
        fs.pathExists (WRAPPER_SCRIPTS_FOLDER home) = true →
        list_commands home fs = ListResult.uncaught) := by
  refine ⟨extract_none_of_no_marker, ?_, ?_⟩
  · intro content q h
    exact containsSubstr_decomp _ _ (extract_some_marker content q h)
  · intro home name content fs halk hnm hslash hdir
    have hqmem : joinPath (WRAPPER_SCRIPTS_FOLDER home) name ∈
        fs.files.map Prod.fst ++ fs.links.map Prod.fst :=
      List.mem_append.mpr (Or.inl (List.mem_map.mpr ⟨_, alookup_some_mem _ _ _ halk, rfl⟩))
    have hmem : name ∈ fs.listdir (WRAPPER_SCRIPTS_FOLDER home) :=
      mem_listdir_of fs _ name _ hqmem (join_data_pre _ _) hslash
    have hmem2 : name ∈ sortStrings (fs.listdir (WRAPPER_SCRIPTS_FOLDER home)) :=
      ((List.perm_insertionSort (· ≤ ·) _).mem_iff).mpr hmem
    have hg : (fun cmd =>
        match (fs.readFile (joinPath (WRAPPER_SCRIPTS_FOLDER home) cmd)).bind
            extractScriptPath with
        | some sp => some (cmd, sp)
        | none => none) name = (none : Option (String × String)) := by
      have hread : fs.readFile (joinPath (WRAPPER_SCRIPTS_FOLDER home) name)
          = some content := by
        unfold FS.readFile
        rw [halk]
      show (match (fs.readFile (joinPath (WRAPPER_SCRIPTS_FOLDER home) name)).bind
          extractScriptPath with
        | some sp => some (name, sp)
        | none => none) = (none : Option (String × String))
      rw [hread]
      show (match extractScriptPath content with
        | some sp => some (name, sp)
        | none => none) = (none : Option (String × String))
      rw [extract_none_of_no_marker content hnm]
    unfold list_commands
    rw [if_neg (by simp [hdir])]
    rw [if_neg (by
      intro hh
      cases hl : fs.listdir (WRAPPER_SCRIPTS_FOLDER home) with
      | nil => rw [hl] at hmem; simp at hmem
      | cons a l => rw [hl] at hh; simp at hh)]
    rw [optMapList_none _ _ name hmem2 hg]

/-- C10 counterexample: the wrapper text `script_path = "abc` contains the
marker but no closing quote after it, yet the extraction still returns a path
(`abc`) rather than requiring a later `"`. -/
theorem c10_counterexample :
    "script_path = \"abc".data = markerStr.data ++ "abc".data ∧
      '"' ∉ "abc".data ∧
      extractScriptPath "script_path = \"abc" = some "abc" := by
  refine ⟨by decide, by decide, by decide⟩

/-- C10 witness: a scripts directory holding one marker-less wrapper makes the
whole listing fail. -/
theorem c10_witness :
    list_commands "/h"
        ⟨[(joinPath (WRAPPER_SCRIPTS_FOLDER "/h") "badcmd", "no marker here")], [],
          [WRAPPER_SCRIPTS_FOLDER "/h"], []⟩ = ListResult.uncaught :=
  c10_extraction_partial.2.2 "/h" "badcmd" "no marker here" _
    (by decide) (by decide) (by decide) (by decide)

/-! ## Claim C8: command-name validation -/

/-- The claim's own regex `^[A-Za-z][A-Za-z0-9_-]*$` read as a fully anchored
match, written from the spec's words for comparison with the code. -/
def specNameRegex (s : String) : Bool :=
  match s.data with
  | [] => false
  | c :: rest => isAsciiLetter c && rest.all isNameTailChar

theorem pyMatch_iff_spec (s : String) : pyMatchNameRegex s = true ↔
    (specNameRegex s = true ∨ (s.data.getLast? = some '\n' ∧
      specNameRegex (String.mk s.data.dropLast) = true)) := by
  unfold pyMatchNameRegex specNameRegex
  by_cases hl : s.data.getLast? = some '\n'
  · rw [if_pos hl]
    constructor
    · intro h
      exact Or.inr ⟨hl, h⟩
    · rintro (h | ⟨-, h⟩)
      · exfalso
        cases hd : s.data with
        | nil => rw [hd] at hl; simp at hl
        | cons c rest =>
          rw [hd] at h hl
          simp only [Bool.and_eq_true] at h
          have hmem : '\n' ∈ c :: rest := mem_of_getLast?_eq _ _ hl
          rcases List.mem_cons.mp hmem with heq | hmem2
          · rw [← heq] at h
            exact absurd h.1 (by decide)
          · have := List.all_eq_true.mp h.2 _ hmem2
            exact absurd this (by decide)
      · exact h
  · rw [if_neg hl]
    constructor
    · exact Or.inl
    · rintro (h | ⟨hc, -⟩)
      · exact h
      · exact absurd hc hl

/-- C8 (corrected): the validator accepts exactly the names that match
`^[A-Za-z][A-Za-z0-9_-]*$` possibly followed by one newline (python's `$`
matches before a final newline), whose python-lowercased full text is neither
`bake` nor in the reserved set; in particular it rejects the empty string,
digit-initial names, `bake` in any case and reserved names such as `git`. -/
theorem c8_name_validation :
    (∀ s : String, (validate_command_name s).1 = true ↔
      ((specNameRegex s = true ∨ (s.data.getLast? = some '\n' ∧
          specNameRegex (String.mk s.data.dropLast) = true)) ∧
        pyLower s ≠ "bake" ∧ pyLower s ∉ reserved_names)) ∧
    (validate_command_name "").1 = false ∧
    (validate_command_name "9lives").1 = false ∧
    (validate_command_name "bake").1 = false ∧
    (validate_command_name "BAKE").1 = false ∧
    (validate_command_name "git").1 = false ∧
    (validate_command_name "hello_world-2").1 = true := by
  refine ⟨?_, by decide, by decide, by decide, by decide, by decide, by decide⟩
  intro s
  constructor
  · intro h
    obtain ⟨-, hre, hb, hr⟩ := validate_name_unfold s h
    exact ⟨(pyMatch_iff_spec s).mp hre, hb, hr⟩
  · rintro ⟨hre, hb, hr⟩
    exact validate_name_of_parts s ((pyMatch_iff_spec s).mpr hre) hb hr

/-- C8 counterexample: the code accepts `git\n` (python's `$` matches before
the trailing newline, and the lowercase reserved check compares the full
string `git\n`), although that string does not match the claim's regex. -/
theorem c8_counterexample :
    (validate_command_name "git\n").1 = true ∧ specNameRegex "git\n" = false := by
  exact ⟨by decide, by decide⟩

/-- C8 witness: the amended characterisation instantiated at `tool-x`. -/
theorem c8_witness :
    (validate_command_name "tool-x").1 = true ↔
      ((specNameRegex "tool-x" = true ∨ ("tool-x".data.getLast? = some '\n' ∧
          specNameRegex (String.mk "tool-x".data.dropLast) = true)) ∧
        pyLower "tool-x" ≠ "bake" ∧ pyLower "tool-x" ∉ reserved_names) :=
  c8_name_validation.1 "tool-x"

/-! ## Claim C5: rename precheck order and unchanged state -/

/-- C5 (corrected): when the old wrapper is absent, `rename_command` reports
`NotFound` and leaves the filesystem untouched — provided the new name passes
validation and differs from the old one.  The code checks the new name first
and the same-name condition second, so in those cases it fails with
`InvalidName` resp. the same-name error instead of `NotFound`; the state is
unchanged in every one of these pre-check failures. -/
theorem c5_rename_precheck (home old_name new_name : String) (force : Bool)
    (userInput : String) (fl : RenameFaults) (fs : FS) :
    ((validate_command_name new_name).1 = true → old_name ≠ new_name →
      fs.pathExists (joinPath (WRAPPER_SCRIPTS_FOLDER home) old_name) = false →
      rename_command home old_name new_name force userInput fl fs
        = (fs, RenameResult.notFound)) ∧
    ((validate_command_name new_name).1 = false →
      rename_command home old_name new_name force userInput fl fs
        = (fs, RenameResult.invalidName (validate_command_name new_name).2)) ∧
    ((validate_command_name new_name).1 = true → old_name = new_name →
      rename_command home old_name new_name force userInput fl fs
        = (fs, RenameResult.sameName)) := by
  refine ⟨?_, ?_, ?_⟩
  · intro h1 h2 h3
    unfold rename_command
    rw [if_neg (by simp [h1]), if_neg h2, if_pos h3]
  · intro h1
    unfold rename_command
    rw [if_pos h1]
  · intro h1 h2
    unfold rename_command
    rw [if_neg (by simp [h1]), if_pos h2]

/-- C5 counterexample: with the old command absent and an invalid new name,
the result is `InvalidName`, not `NotFound` as the claim demands. -/
theorem c5_counterexample :
    (rename_command "/h" "a" "1bad" true "" noRenameFaults ⟨[], [], [], []⟩).2
        ≠ RenameResult.notFound ∧
      (FS.mk [] [] [] []).pathExists
        (joinPath (WRAPPER_SCRIPTS_FOLDER "/h") "a") = false := by
  exact ⟨by decide, by decide⟩

/-- C5 witness: a missing old command with a valid distinct new name yields
`NotFound` and the untouched state. -/
theorem c5_witness :
    rename_command "/h" "a" "b" false "" noRenameFaults ⟨[], [], [], []⟩
      = (⟨[], [], [], []⟩, RenameResult.notFound) :=
  (c5_rename_precheck "/h" "a" "b" false "" noRenameFaults ⟨[], [], [], []⟩).1
    (by decide) (by decide) (by decide)

/-! ## Claim C7: List ordering and empty cases -/

/-- C7 (confirmed): a missing wrapper-scripts directory and an empty one both
yield no rows and no error — they differ only in the message printed
(`missingFolder` vs `noCommands`) — and every produced table is sorted by
command name under the code-point (case-sensitive ordinal) string order. -/
theorem c7_list_sorted_and_empty (home : String) (fs : FS) :
    (fs.pathExists (WRAPPER_SCRIPTS_FOLDER home) = false →
      list_commands home fs = ListResult.missingFolder) ∧
    (fs.pathExists (WRAPPER_SCRIPTS_FOLDER home) = true →
      fs.listdir (WRAPPER_SCRIPTS_FOLDER home) = [] →
      list_commands home fs = ListResult.noCommands) ∧
    (∀ rows, list_commands home fs = ListResult.table rows →
      List.Sorted (· ≤ ·) (rows.map Prod.fst)) := by
  refine ⟨?_, ?_, ?_⟩
  · intro h
    unfold list_commands
    rw [if_pos h]
  · intro h1 h2
    unfold list_commands
    rw [if_neg (by simp [h1]), h2]
    rfl
  · intro rows h
    unfold list_commands at h
    by_cases hdir : fs.pathExists (WRAPPER_SCRIPTS_FOLDER home) = false
    · rw [if_pos hdir] at h
      simp at h
    · rw [if_neg hdir] at h
      by_cases hemp : (fs.listdir (WRAPPER_SCRIPTS_FOLDER home)).isEmpty = true
      · rw [if_pos hemp] at h
        simp at h
      · rw [if_neg hemp] at h
        cases hopt : optMapList (fun cmd =>
            match (fs.readFile (joinPath (WRAPPER_SCRIPTS_FOLDER home) cmd)).bind
                extractScriptPath with
            | some sp => some (cmd, sp)
            | none => none) (sortStrings (fs.listdir (WRAPPER_SCRIPTS_FOLDER home))) with
        | none =>
          rw [hopt] at h
          simp at h
        | some rows2 =>
          rw [hopt] at h
          have hrows : rows2 = rows := by
            have h2 : ListResult.table rows2 = ListResult.table rows := h
            injection h2
          have hshape : ∀ (a : String) (b : String × String),
              (match (fs.readFile (joinPath (WRAPPER_SCRIPTS_FOLDER home) a)).bind
                  extractScriptPath with
                | some sp => some (a, sp)
                | none => none) = some b → b.1 = a := by
            intro a b hab
            cases hs : (fs.readFile (joinPath (WRAPPER_SCRIPTS_FOLDER home) a)).bind
                extractScriptPath with
            | none =>
              rw [hs] at hab
              simp at hab
            | some sp =>
              rw [hs] at hab
              have : some (a, sp) = some b := hab
              rw [← Option.some_inj.mp this]
          have hfst := optMapList_fst _ _ rows2 hshape hopt
          rw [← hrows, hfst]
          exact List.sorted_insertionSort (· ≤ ·) _

/-- C7 witness: the empty-state instances. -/
theorem c7_witness :
    list_commands "/h" ⟨[], [], [], []⟩ = ListResult.missingFolder :=
  (c7_list_sorted_and_empty "/h" ⟨[], [], [], []⟩).1 (by decide)

/-! ## Claim C4: delete attempts both removals independently -/

theorem safe_remove_symlink_pres_fault (fs : FS) (p : String)
    (hp : (fs.pathExists p || fs.isLink p) = true) :
    safe_remove_symlink fs p true = (fs, false) := by
  unfold safe_remove_symlink
  rw [if_pos hp]
  rfl

theorem safe_remove_symlink_pres_ok (fs : FS) (p : String)
    (hp : (fs.pathExists p || fs.isLink p) = true) :
    safe_remove_symlink fs p false = (fs.removePath p, true) := by
  unfold safe_remove_symlink
  rw [if_pos hp]
  rfl

theorem safe_remove_symlink_absent (fs : FS) (p : String) (fault : Bool)
    (hp : (fs.pathExists p || fs.isLink p) = false) :
    safe_remove_symlink fs p fault = (fs, true) := by
  unfold safe_remove_symlink
  rw [if_neg (by simp [hp])]

theorem safe_remove_file_pres_fault (fs : FS) (p : String)
    (hp : fs.pathExists p = true) :
    safe_remove_file fs p true = (fs, false) := by
  unfold safe_remove_file
  rw [if_pos hp]
  rfl

theorem safe_remove_file_pres_ok (fs : FS) (p : String)
    (hp : fs.pathExists p = true) :
    safe_remove_file fs p false = (fs.removePath p, true) := by
  unfold safe_remove_file
  rw [if_pos hp]
  rfl

theorem safe_remove_file_absent (fs : FS) (p : String) (fault : Bool)
    (hp : fs.pathExists p = false) :
    safe_remove_file fs p fault = (fs, true) := by
  unfold safe_remove_file
  rw [if_neg (by simp [hp])]

theorem removePath_files (fs : FS) (p : String) :
    (fs.removePath p).files = aerase fs.files p := rfl

theorem removePath_links (fs : FS) (p : String) :
    (fs.removePath p).links = aerase fs.links p := rfl

theorem removePath_isFile_ne (fs : FS) (p q : String) (h : p ≠ q) :
    (fs.removePath p).isFile q = fs.isFile q := by
  unfold FS.isFile
  rw [removePath_files, alookup_aerase_ne _ _ _ h]

/-- C4 (confirmed): when the wrapper for `name` exists as a regular file, both
the symlink removal and the wrapper removal are attempted, each independently
of the other's outcome; `success` is reported exactly when both succeed and
the distinct `incomplete` outcome exactly otherwise. -/
theorem c4_delete_independent (home name : String) (fl : DeleteFaults) (fs : FS)
    (hwf : fs.isFile (joinPath (WRAPPER_SCRIPTS_FOLDER home) name) = true) :
    (fl.removeWrapper = false →
      alookup (delete_command home name fl fs).1.files
        (joinPath (WRAPPER_SCRIPTS_FOLDER home) name) = none) ∧
    (fl.removeLink = false →
      alookup (delete_command home name fl fs).1.links
        (joinPath (USER_BIN_DIR home) name) = none) ∧
    ((delete_command home name fl fs).2 = DeleteResult.success ↔
      (!((fs.pathExists (joinPath (USER_BIN_DIR home) name)
          || fs.isLink (joinPath (USER_BIN_DIR home) name)) && fl.removeLink)
        && !fl.removeWrapper) = true) ∧
    ((delete_command home name fl fs).2 = DeleteResult.incomplete ↔
      (!((fs.pathExists (joinPath (USER_BIN_DIR home) name)
          || fs.isLink (joinPath (USER_BIN_DIR home) name)) && fl.removeLink)
        && !fl.removeWrapper) = false) := by
  have hsw : joinPath (USER_BIN_DIR home) name ≠ joinPath (WRAPPER_SCRIPTS_FOLDER home) name :=
    bin_ne_wrapper home name name
  have hws : joinPath (WRAPPER_SCRIPTS_FOLDER home) name ≠ joinPath (USER_BIN_DIR home) name :=
    fun hh => hsw hh.symm
  have hex : fs.pathExists (joinPath (WRAPPER_SCRIPTS_FOLDER home) name) = true :=
    FS.pathExists_of_isFile fs _ hwf
  have hlinkabs : (fs.pathExists (joinPath (USER_BIN_DIR home) name)
        || fs.isLink (joinPath (USER_BIN_DIR home) name)) = false →
      alookup fs.links (joinPath (USER_BIN_DIR home) name) = none := by
    intro hp
    cases hb : fs.isLink (joinPath (USER_BIN_DIR home) name) with
    | true => rw [hb] at hp; simp at hp
    | false => exact isLink_false_alookup fs _ hb
  unfold delete_command
  rw [if_neg (by simp [hex])]
  by_cases hpres : (fs.pathExists (joinPath (USER_BIN_DIR home) name)
      || fs.isLink (joinPath (USER_BIN_DIR home) name)) = true
  · cases hfl : fl.removeLink with
    | true =>
      rw [safe_remove_symlink_pres_fault fs _ hpres]
      simp only []
      cases hfw : fl.removeWrapper with
      | true =>
        rw [safe_remove_file_pres_fault fs _ hex]
        simp only []
        refine ⟨fun hh => absurd hh (by simp), fun hh => absurd hh (by simp), ?_, ?_⟩ <;>
          simp [hpres, hfl]
      | false =>
        rw [safe_remove_file_pres_ok fs _ hex]
        simp only []
        rw [if_neg (by simp)]
        refine ⟨fun _ => ?_, fun hh => absurd hh (by simp), ?_, ?_⟩
        · rw [removePath_files]
          exact alookup_aerase_self _ _
        · simp [hpres, hfl]
        · simp [hpres, hfl]
    | false =>
      rw [safe_remove_symlink_pres_ok fs _ hpres]
      simp only []
      have hex2 : (fs.removePath (joinPath (USER_BIN_DIR home) name)).pathExists
          (joinPath (WRAPPER_SCRIPTS_FOLDER home) name) = true := by
        apply FS.pathExists_of_isFile
        rw [removePath_isFile_ne _ _ _ hsw]
        exact hwf
      cases hfw : fl.removeWrapper with
      | true =>
        rw [safe_remove_file_pres_fault _ _ hex2]
        simp only []
        rw [if_neg (by simp)]
        refine ⟨fun hh => absurd hh (by simp), fun _ => ?_, ?_, ?_⟩
        · rw [removePath_links]
          exact alookup_aerase_self _ _
        · simp [hpres, hfl]
        · simp [hpres, hfl]
      | false =>
        rw [safe_remove_file_pres_ok _ _ hex2]
        simp only []
        rw [if_pos (by simp)]
        refine ⟨fun _ => ?_, fun _ => ?_, ?_, ?_⟩
        · rw [removePath_files, removePath_files]
          rw [alookup_aerase_self]
        · rw [removePath_links, removePath_links]
          rw [alookup_aerase_ne _ _ _ hws]
          exact alookup_aerase_self _ _
        · simp [hpres, hfl]
        · simp [hpres, hfl]
  · have hpres2 : (fs.pathExists (joinPath (USER_BIN_DIR home) name)
        || fs.isLink (joinPath (USER_BIN_DIR home) name)) = false := by
      cases hb : (fs.pathExists (joinPath (USER_BIN_DIR home) name)
          || fs.isLink (joinPath (USER_BIN_DIR home) name)) with
      | false => rfl
      | true => exact absurd hb hpres
    rw [safe_remove_symlink_absent fs _ _ hpres2]
    simp only []
    cases hfw : fl.removeWrapper with
    | true =>
      rw [safe_remove_file_pres_fault fs _ hex]
      simp only []
      rw [if_neg (by simp)]
      refine ⟨fun hh => absurd hh (by simp), fun _ => hlinkabs hpres2, ?_, ?_⟩
      · simp [hpres2]
      · simp [hpres2]
    | false =>
      rw [safe_remove_file_pres_ok fs _ hex]
      simp only []
      rw [if_pos (by simp)]
      refine ⟨fun _ => ?_, fun _ => ?_, ?_, ?_⟩
      · rw [removePath_files]
        exact alookup_aerase_self _ _
      · rw [removePath_links, alookup_aerase_ne _ _ _ hws]
        exact hlinkabs hpres2
      · simp [hpres2]
      · simp [hpres2]

/-- C4 witness: with no faults injected, a fully registered command is deleted
with full success. -/
theorem c4_witness :
    (FS.mk [(joinPath (WRAPPER_SCRIPTS_FOLDER "/h") "a", "wrapper text")]
        [(joinPath (USER_BIN_DIR "/h") "a", joinPath (WRAPPER_SCRIPTS_FOLDER "/h") "a")]
        [] []).isFile (joinPath (WRAPPER_SCRIPTS_FOLDER "/h") "a") = true ∧
      (delete_command "/h" "a" ⟨false, false⟩
          (FS.mk [(joinPath (WRAPPER_SCRIPTS_FOLDER "/h") "a", "wrapper text")]
            [(joinPath (USER_BIN_DIR "/h") "a", joinPath (WRAPPER_SCRIPTS_FOLDER "/h") "a")]
            [] [])).2 = DeleteResult.success :=
  ⟨by decide,
    ((c4_delete_independent "/h" "a" ⟨false, false⟩ _ (by decide)).2.2.1).mpr (by decide)⟩

/-! ## add/rename analysis helpers -/

theorem abspath_absolute (cwd p : String) (h : p.data.take 1 = ['/']) :
    os_path_abspath cwd p = p := by
  unfold os_path_abspath
  rw [if_pos h]

theorem writeFile_files (fs : FS) (w c : String) :
    (fs.writeFile w c).files = (w, c) :: aerase fs.files w := rfl

theorem writeFile_links (fs : FS) (w c : String) :
    (fs.writeFile w c).links = fs.links := rfl

theorem writeFile_isLink (fs : FS) (w c s : String) :
    (fs.writeFile w c).isLink s = fs.isLink s := rfl

theorem writeFile_pathExists_false (fs : FS) (w c s : String) (hne : w ≠ s)
    (h1 : fs.pathExists s = false) (h2 : fs.isLink s = false) :
    (fs.writeFile w c).pathExists s = false := by
  obtain ⟨hf, hd⟩ := pathExists_false_parts fs s h1
  unfold FS.pathExists FS.isFile
  rw [writeFile_files, writeFile_links, alookup_cons_ne _ _ _ _ hne,
    alookup_aerase_ne _ _ _ hne, isLink_false_alookup fs s h2]
  unfold FS.isFile at hf
  show ((alookup fs.files s).isSome || false || fs.dirs.contains s) = false
  rw [hf, hd]
  rfl

theorem writeFile_pathExists_true (fs : FS) (w c s : String) (hne : w ≠ s)
    (h : fs.pathExists s = true) : (fs.writeFile w c).pathExists s = true := by
  unfold FS.pathExists at h ⊢
  rw [writeFile_links]
  rcases Bool.or_eq_true_iff.mp h with h' | hdir
  · rcases Bool.or_eq_true_iff.mp h' with hfile | hres
    · have : (fs.writeFile w c).isFile s = true := by
        unfold FS.isFile at hfile ⊢
        rw [writeFile_files, alookup_cons_ne _ _ _ _ hne, alookup_aerase_ne _ _ _ hne]
        exact hfile
      rw [this]
      rfl
    · cases halk : alookup fs.links s with
      | none =>
        rw [halk] at hres
        simp at hres
      | some t =>
        rw [halk] at hres
        have hres2 : fs.isFile t = true := hres
        have hwt : (fs.writeFile w c).isFile t = true := by
          unfold FS.isFile at hres2 ⊢
          rw [writeFile_files]
          by_cases htw : w = t
          · rw [htw, alookup_cons_self]
            rfl
          · rw [alookup_cons_ne _ _ _ _ htw, alookup_aerase_ne _ _ _ htw]
            exact hres2
        simp [hwt]
  · rw [show (fs.writeFile w c).dirs = fs.dirs from rfl, hdir]
    simp

theorem writeFile_isFile_self (fs : FS) (w c : String) :
    (fs.writeFile w c).isFile w = true := by
  unfold FS.isFile
  rw [writeFile_files, alookup_cons_self]
  rfl

theorem addLink_links (fs : FS) (p t : String) :
    (fs.addLink p t).links = (p, t) :: aerase fs.links p := rfl

theorem addLink_files (fs : FS) (p t : String) :
    (fs.addLink p t).files = fs.files := rfl

/-- If `add_try` succeeds, the created symlink's stored target is exactly the
wrapper path. -/
theorem add_try_success_link (home name script_path : String) (fl : AddFaults) (fs : FS)
    (h : (add_try home name script_path fl fs).2 = AddResult.success) :
    alookup (add_try home name script_path fl fs).1.links
        (joinPath (USER_BIN_DIR home) name)
      = some (joinPath (WRAPPER_SCRIPTS_FOLDER home) name) := by
  unfold add_try at h ⊢
  by_cases h1 : fl.writeWrapper = true
  · rw [if_pos h1] at h
    simp [add_rollback] at h
  · rw [if_neg h1] at h ⊢
    simp only [] at h ⊢
    by_cases h2 : fl.chmodWrapper = true
    · rw [if_pos h2] at h
      simp [add_rollback] at h
    · rw [if_neg h2] at h ⊢
      by_cases hpre : (fs.writeFile (joinPath (WRAPPER_SCRIPTS_FOLDER home) name)
          (create_wrapper_script script_path)).pathExists
          (joinPath (USER_BIN_DIR home) name) = true
      · rw [if_pos hpre] at h ⊢
        set fs2 := (safe_remove_symlink
          (fs.writeFile (joinPath (WRAPPER_SCRIPTS_FOLDER home) name)
            (create_wrapper_script script_path))
          (joinPath (USER_BIN_DIR home) name) fl.removeOldLink).1 with hfs2
        by_cases h3 : (fs2.pathExists (joinPath (USER_BIN_DIR home) name)
            || fs2.isLink (joinPath (USER_BIN_DIR home) name)) = true
        · rw [if_pos h3] at h
          simp [add_rollback] at h
        · rw [if_neg h3] at h ⊢
          by_cases h4 : fl.createLink = true
          · rw [if_pos h4] at h
            simp [add_rollback] at h
          · rw [if_neg h4] at h ⊢
            rw [addLink_links, alookup_cons_self]
      · rw [if_neg hpre] at h ⊢
        set fs2 := fs.writeFile (joinPath (WRAPPER_SCRIPTS_FOLDER home) name)
          (create_wrapper_script script_path) with hfs2
        by_cases h3 : (fs2.pathExists (joinPath (USER_BIN_DIR home) name)
            || fs2.isLink (joinPath (USER_BIN_DIR home) name)) = true
        · rw [if_pos h3] at h
          simp [add_rollback] at h
        · rw [if_neg h3] at h ⊢
          by_cases h4 : fl.createLink = true
          · rw [if_pos h4] at h
            simp [add_rollback] at h
          · rw [if_neg h4] at h ⊢
            rw [addLink_links, alookup_cons_self]

/-- A successful `add_command` implies both validations passed and the result
is that of the `try` block with the resolved absolute script path. -/
theorem add_command_success_shape (home cwd name script_arg : String) (force : Bool)
    (userInput : String) (fl : AddFaults) (fs : FS)
    (hs : (add_command home cwd name script_arg force userInput fl fs).2
      = AddResult.success) :
    (validate_command_name name).1 = true ∧
    (validate_script_path fs (os_path_abspath cwd script_arg)).1 = true ∧
    add_command home cwd name script_arg force userInput fl fs
      = add_try home name (os_path_abspath cwd script_arg) fl fs := by
  unfold add_command at hs ⊢
  by_cases hv1 : (validate_command_name name).1 = false
  · rw [if_pos hv1] at hs
    simp at hs
  · rw [if_neg hv1] at hs ⊢
    simp only [] at hs ⊢
    by_cases hv2 : (validate_script_path fs (os_path_abspath cwd script_arg)).1 = false
    · rw [if_pos hv2] at hs
      simp at hs
    · rw [if_neg hv2] at hs ⊢
      have hv1' : (validate_command_name name).1 = true := by
        cases hb : (validate_command_name name).1 with
        | true => rfl
        | false => exact absurd hb hv1
      have hv2' : (validate_script_path fs (os_path_abspath cwd script_arg)).1 = true := by
        cases hb : (validate_script_path fs (os_path_abspath cwd script_arg)).1 with
        | true => rfl
        | false => exact absurd hb hv2
      refine ⟨hv1', hv2', ?_⟩
      by_cases hg : ((fs.pathExists (joinPath (WRAPPER_SCRIPTS_FOLDER home) name)
          || fs.pathExists (joinPath (USER_BIN_DIR home) name)) && !force) = true
      · rw [if_pos hg] at hs ⊢
        by_cases hw : fs.pathExists (joinPath (WRAPPER_SCRIPTS_FOLDER home) name) = true
        · rw [if_pos hw] at hs ⊢
          cases hrd : (fs.readFile (joinPath (WRAPPER_SCRIPTS_FOLDER home) name)).bind
              extractScriptPath with
          | none =>
            rw [hrd] at hs
            have hs2 : (fs, AddResult.uncaught).2 = AddResult.success := hs
            simp at hs2
          | some sp =>
            rw [hrd] at hs
            have hs2 : (if pyLower userInput = "y" then
                add_try home name (os_path_abspath cwd script_arg) fl fs
              else (fs, AddResult.cancelled)).2 = AddResult.success := hs
            show (if pyLower userInput = "y" then
                add_try home name (os_path_abspath cwd script_arg) fl fs
              else (fs, AddResult.cancelled))
              = add_try home name (os_path_abspath cwd script_arg) fl fs
            by_cases hy : pyLower userInput = "y"
            · rw [if_pos hy]
            · rw [if_neg hy] at hs2
              simp at hs2
        · rw [if_neg hw] at hs ⊢
          by_cases hy : pyLower userInput = "y"
          · rw [if_pos hy]
          · rw [if_neg hy] at hs
            simp at hs
      · rw [if_neg hg]

/-- The wrapper path of a regex-valid command name is never the validated
script path: the name contains no dot while the script's final component
must carry a `.py`/`.pyw` suffix. -/
theorem wrapper_path_ne_script (home name p : String)
    (hname : pyMatchNameRegex name = true)
    (hsuf : pyLower (pathSuffix p) = ".py" ∨ pyLower (pathSuffix p) = ".pyw") :
    joinPath (WRAPPER_SCRIPTS_FOLDER home) name ≠ p := by
  intro hcontra
  have hne : pathSuffix p ≠ "" := by
    intro hh
    rw [hh] at hsuf
    rcases hsuf with h | h <;> exact absurd h (by decide)
  have hdot : '.' ∈ lastComponent p.data := by
    cases hf : findDotIdx (lastComponent p.data).reverse with
    | none => exact absurd (pathSuffix_of_findIdx_none p hf) hne
    | some j =>
      have := findDotIdx_some_dot _ _ hf
      exact List.mem_reverse.mp this
  have hpd : p.data = (WRAPPER_SCRIPTS_FOLDER home).data ++ '/' :: name.data := by
    rw [← hcontra, join_data_pre]
    simp
  have hlast : lastComponent p.data = name.data := by
    rw [hpd, lastComponent_append_slash]
    exact lastComponent_no_slash _
      (pyMatch_not_mem name hname '/' (by decide) (by decide))
  rw [hlast] at hdot
  exact pyMatch_not_mem name hname '.' (by decide) (by decide) hdot

/-! ## Claim C9: the symlink targets the wrapper, not the user script -/

/-- C9 (confirmed): after every successful Add, the symlink at
`<user-bin-dir>/<name>` stores as its target the wrapper path
`<wrapper-dir>/<name>`, which is never the user's original (resolved) script
path. -/
theorem c9_symlink_targets_wrapper (home cwd name script_arg : String) (force : Bool)
    (userInput : String) (fl : AddFaults) (fs : FS)
    (hs : (add_command home cwd name script_arg force userInput fl fs).2
      = AddResult.success) :
    alookup (add_command home cwd name script_arg force userInput fl fs).1.links
        (joinPath (USER_BIN_DIR home) name)
      = some (joinPath (WRAPPER_SCRIPTS_FOLDER home) name) ∧
    joinPath (WRAPPER_SCRIPTS_FOLDER home) name ≠ os_path_abspath cwd script_arg := by
  obtain ⟨hv1, hv2, heq⟩ := add_command_success_shape home cwd name script_arg force
    userInput fl fs hs
  constructor
  · rw [heq]
    apply add_try_success_link
    rw [← heq]
    exact hs
  · obtain ⟨-, hre, -, -⟩ := validate_name_unfold name hv1
    obtain ⟨-, -, -, hsuf, -⟩ := validate_script_unfold fs _ hv2
    exact wrapper_path_ne_script home name _ hre hsuf

/-- C9 witness: a concrete successful add. -/
theorem c9_witness :
    (add_command "/h" "/" "foo" "/tmp/a.py" false "" noAddFaults
        ⟨[("/tmp/a.py", "print(1)")], [],
          ["/h/.local/lib/bake/scripts", "/h/.local/bin"], ["/tmp/a.py"]⟩).2
      = AddResult.success ∧
    alookup (add_command "/h" "/" "foo" "/tmp/a.py" false "" noAddFaults
        ⟨[("/tmp/a.py", "print(1)")], [],
          ["/h/.local/lib/bake/scripts", "/h/.local/bin"], ["/tmp/a.py"]⟩).1.links
        (joinPath (USER_BIN_DIR "/h") "foo")
      = some (joinPath (WRAPPER_SCRIPTS_FOLDER "/h") "foo") :=
  ⟨by decide,
    (c9_symlink_targets_wrapper "/h" "/" "foo" "/tmp/a.py" false "" noAddFaults
      ⟨[("/tmp/a.py", "print(1)")], [],
        ["/h/.local/lib/bake/scripts", "/h/.local/bin"], ["/tmp/a.py"]⟩ (by decide)).1⟩

theorem safe_remove_symlink_fst (fs : FS) (p : String) (b : Bool) :
    (safe_remove_symlink fs p b).1 = fs ∨ (safe_remove_symlink fs p b).1 = fs.removePath p := by
  unfold safe_remove_symlink
  by_cases hc : (fs.pathExists p || fs.isLink p) = true
  · rw [if_pos hc]
    cases b
    · exact Or.inr rfl
    · exact Or.inl rfl
  · rw [if_neg hc]
    exact Or.inl rfl

theorem add_rollback_facts (w : String) (σ : FS) (hw : σ.isFile w = true) :
    alookup (add_rollback w false σ).1.files w = none ∧
      (add_rollback w false σ).2 = AddResult.osError := by
  unfold add_rollback
  rw [safe_remove_file_pres_ok _ _ (FS.pathExists_of_isFile _ _ hw)]
  refine ⟨?_, rfl⟩
  show alookup (σ.removePath w).files w = none
  rw [removePath_files]
  exact alookup_aerase_self _ _

/-! ## Claim C6: add rolls back the wrapper on a later I/O failure -/

/-- C6 (confirmed): if the wrapper was written successfully but a later step
of the `try` block fails — `chmod`, the creation of the symlink, or the
pre-creation removal of an existing symlink (whose silent failure makes
`os.symlink` raise `FileExistsError`) — the newly written wrapper file is
deleted by the handler rather than left orphaned, and the failure is
reported.  (Rollback's own removal is assumed not to fail as well.) -/
theorem c6_add_failure_rolls_back (home cwd name script_arg userInput : String)
    (fl : AddFaults) (fs : FS)
    (hv1 : (validate_command_name name).1 = true)
    (hv2 : (validate_script_path fs (os_path_abspath cwd script_arg)).1 = true)
    (hwr : fl.writeWrapper = false)
    (hrb : fl.rollbackRemove = false)
    (hfail : fl.chmodWrapper = true ∨ fl.createLink = true ∨
      (fl.removeOldLink = true ∧
        fs.pathExists (joinPath (USER_BIN_DIR home) name) = true)) :
    alookup (add_command home cwd name script_arg true userInput fl fs).1.files
        (joinPath (WRAPPER_SCRIPTS_FOLDER home) name) = none ∧
    (add_command home cwd name script_arg true userInput fl fs).2 = AddResult.osError := by
  have hsw : joinPath (USER_BIN_DIR home) name ≠ joinPath (WRAPPER_SCRIPTS_FOLDER home) name :=
    bin_ne_wrapper home name name
  have hws : joinPath (WRAPPER_SCRIPTS_FOLDER home) name ≠ joinPath (USER_BIN_DIR home) name :=
    fun hh => hsw hh.symm
  unfold add_command
  rw [if_neg (by simp [hv1]), if_neg (by simp [hv2]), if_neg (by simp)]
  unfold add_try
  rw [if_neg (by simp [hwr]), hrb]
  simp only []
  have hfile1 : (fs.writeFile (joinPath (WRAPPER_SCRIPTS_FOLDER home) name)
      (create_wrapper_script (os_path_abspath cwd script_arg))).isFile
      (joinPath (WRAPPER_SCRIPTS_FOLDER home) name) = true :=
    writeFile_isFile_self _ _ _
  by_cases h2 : fl.chmodWrapper = true
  · rw [if_pos h2]
    exact add_rollback_facts _ _ hfile1
  · rw [if_neg h2]
    by_cases hpre : (fs.writeFile (joinPath (WRAPPER_SCRIPTS_FOLDER home) name)
        (create_wrapper_script (os_path_abspath cwd script_arg))).pathExists
        (joinPath (USER_BIN_DIR home) name) = true
    · rw [if_pos hpre]
      set fs1 := fs.writeFile (joinPath (WRAPPER_SCRIPTS_FOLDER home) name)
        (create_wrapper_script (os_path_abspath cwd script_arg)) with hfs1
      set fs2 := (safe_remove_symlink fs1 (joinPath (USER_BIN_DIR home) name)
        fl.removeOldLink).1 with hfs2
      have hfile2 : fs2.isFile (joinPath (WRAPPER_SCRIPTS_FOLDER home) name) = true := by
        rcases safe_remove_symlink_fst fs1 (joinPath (USER_BIN_DIR home) name)
            fl.removeOldLink with hc | hc
        · rw [hfs2, hc]
          exact hfile1
        · rw [hfs2, hc, removePath_isFile_ne _ _ _ hsw]
          exact hfile1
      by_cases h3 : (fs2.pathExists (joinPath (USER_BIN_DIR home) name)
          || fs2.isLink (joinPath (USER_BIN_DIR home) name)) = true
      · rw [if_pos h3]
        exact add_rollback_facts _ _ hfile2
      · rw [if_neg h3]
        by_cases h4 : fl.createLink = true
        · rw [if_pos h4]
          exact add_rollback_facts _ _ hfile2
        · exfalso
          rcases hfail with hf | hf | ⟨hf1, hf2⟩
          · exact h2 hf
          · exact h4 hf
          · have hid : fs2 = fs1 := by
              rw [hfs2, hf1, safe_remove_symlink_pres_fault fs1 _
                (by rw [hpre]; rfl)]
            rw [hid] at h3
            exact h3 (by rw [hpre]; rfl)
    · rw [if_neg hpre]
      set fs1 := fs.writeFile (joinPath (WRAPPER_SCRIPTS_FOLDER home) name)
        (create_wrapper_script (os_path_abspath cwd script_arg)) with hfs1
      by_cases h3 : (fs1.pathExists (joinPath (USER_BIN_DIR home) name)
          || fs1.isLink (joinPath (USER_BIN_DIR home) name)) = true
      · rw [if_pos h3]
        exact add_rollback_facts _ _ hfile1
      · rw [if_neg h3]
        by_cases h4 : fl.createLink = true
        · rw [if_pos h4]
          exact add_rollback_facts _ _ hfile1
        · exfalso
          rcases hfail with hf | hf | ⟨hf1, hf2⟩
          · exact h2 hf
          · exact h4 hf
          · exact hpre (writeFile_pathExists_true fs _ _ _ hws hf2)

/-- C6 witness: a chmod failure after the wrapper write leaves no orphan. -/
theorem c6_witness :
    (validate_command_name "foo").1 = true ∧
      (validate_script_path
          (FS.mk [("/tmp/a.py", "print(1)")] []
            ["/h/.local/lib/bake/scripts", "/h/.local/bin"] ["/tmp/a.py"])
          (os_path_abspath "/" "/tmp/a.py")).1 = true ∧
      alookup (add_command "/h" "/" "foo" "/tmp/a.py" true ""
          ⟨false, true, false, false, false⟩
          (FS.mk [("/tmp/a.py", "print(1)")] []
            ["/h/.local/lib/bake/scripts", "/h/.local/bin"] ["/tmp/a.py"])).1.files
          (joinPath (WRAPPER_SCRIPTS_FOLDER "/h") "foo") = none ∧
      (add_command "/h" "/" "foo" "/tmp/a.py" true ""
          ⟨false, true, false, false, false⟩
          (FS.mk [("/tmp/a.py", "print(1)")] []
            ["/h/.local/lib/bake/scripts", "/h/.local/bin"] ["/tmp/a.py"])).2
        = AddResult.osError := by
  refine ⟨by decide, by decide, ?_, ?_⟩
  · exact (c6_add_failure_rolls_back "/h" "/" "foo" "/tmp/a.py" ""
      ⟨false, true, false, false, false⟩ _ (by decide) (by decide) rfl rfl
      (Or.inl rfl)).1
  · exact (c6_add_failure_rolls_back "/h" "/" "foo" "/tmp/a.py" ""
      ⟨false, true, false, false, false⟩ _ (by decide) (by decide) rfl rfl
      (Or.inl rfl)).2

theorem safe_remove_file_fst (fs : FS) (p : String) (b : Bool) :
    (safe_remove_file fs p b).1 = fs ∨ (safe_remove_file fs p b).1 = fs.removePath p := by
  unfold safe_remove_file
  by_cases hc : fs.pathExists p = true
  · rw [if_pos hc]
    cases b
    · exact Or.inr rfl
    · exact Or.inl rfl
  · rw [if_neg hc]
    exact Or.inl rfl

theorem srf_files_ne (σ : FS) (p q : String) (b : Bool) (h : p ≠ q) :
    alookup (safe_remove_file σ p b).1.files q = alookup σ.files q := by
  rcases safe_remove_file_fst σ p b with hc | hc
  · rw [hc]
  · rw [hc, removePath_files, alookup_aerase_ne _ _ _ h]

theorem srf_links_ne (σ : FS) (p q : String) (b : Bool) (h : p ≠ q) :
    alookup (safe_remove_file σ p b).1.links q = alookup σ.links q := by
  rcases safe_remove_file_fst σ p b with hc | hc
  · rw [hc]
  · rw [hc, removePath_links, alookup_aerase_ne _ _ _ h]

theorem srs_files_ne (σ : FS) (p q : String) (b : Bool) (h : p ≠ q) :
    alookup (safe_remove_symlink σ p b).1.files q = alookup σ.files q := by
  rcases safe_remove_symlink_fst σ p b with hc | hc
  · rw [hc]
  · rw [hc, removePath_files, alookup_aerase_ne _ _ _ h]

theorem srs_links_ne (σ : FS) (p q : String) (b : Bool) (h : p ≠ q) :
    alookup (safe_remove_symlink σ p b).1.links q = alookup σ.links q := by
  rcases safe_remove_symlink_fst σ p b with hc | hc
  · rw [hc]
  · rw [hc, removePath_links, alookup_aerase_ne _ _ _ h]

theorem srf_ok_files_self (σ : FS) (p : String) :
    alookup (safe_remove_file σ p false).1.files p = none := by
  unfold safe_remove_file
  cases hp : σ.pathExists p with
  | true =>
    show alookup (σ.removePath p).files p = none
    rw [removePath_files]
    exact alookup_aerase_self _ _
  | false =>
    show alookup σ.files p = none
    exact isFile_false_alookup σ p (pathExists_false_parts σ p hp).1

theorem srs_ok_links_self (σ : FS) (p : String) :
    alookup (safe_remove_symlink σ p false).1.links p = none := by
  unfold safe_remove_symlink
  cases hp : (σ.pathExists p || σ.isLink p) with
  | true =>
    show alookup (σ.removePath p).links p = none
    rw [removePath_links]
    exact alookup_aerase_self _ _
  | false =>
    show alookup σ.links p = none
    refine isLink_false_alookup σ p ?_
    cases hb : σ.isLink p with
    | false => rfl
    | true => rw [hb] at hp; simp at hp

theorem writeFile_alookup_files_ne (fs : FS) (w c q : String) (h : w ≠ q) :
    alookup (fs.writeFile w c).files q = alookup fs.files q := by
  show alookup ((w, c) :: aerase fs.files w) q = alookup fs.files q
  rw [alookup_cons_ne _ _ _ _ h, alookup_aerase_ne _ _ _ h]

/-- The `except Exception` handler of rename, run with its own removals
succeeding, from an exception state `σ` whose old-entry lookups agree with the
initial state `fs`: it reports `renameFailed`, removes the new wrapper and new
symlink, and leaves the old wrapper and old symlink lookups those of `fs`. -/
theorem rename_rollback_facts (old_w old_s new_w new_s : String) (σ fs : FS)
    (h1 : new_w ≠ old_w) (h2 : new_w ≠ old_s) (h3 : new_s ≠ old_w)
    (h4 : new_s ≠ old_s) (h5 : new_s ≠ new_w)
    (hfo : alookup σ.files old_w = alookup fs.files old_w)
    (hlo : alookup σ.links old_s = alookup fs.links old_s) :
    (rename_rollback new_w new_s false false σ).2 = RenameResult.renameFailed ∧
      alookup (rename_rollback new_w new_s false false σ).1.files old_w
        = alookup fs.files old_w ∧
      alookup (rename_rollback new_w new_s false false σ).1.links old_s
        = alookup fs.links old_s ∧
      alookup (rename_rollback new_w new_s false false σ).1.files new_w = none ∧
      alookup (rename_rollback new_w new_s false false σ).1.links new_s = none := by
  unfold rename_rollback
  refine ⟨rfl, ?_, ?_, ?_, ?_⟩
  · show alookup (safe_remove_symlink (safe_remove_file σ new_w false).1 new_s
        false).1.files old_w = alookup fs.files old_w
    rw [srs_files_ne _ _ _ _ h3, srf_files_ne _ _ _ _ h1]
    exact hfo
  · show alookup (safe_remove_symlink (safe_remove_file σ new_w false).1 new_s
        false).1.links old_s = alookup fs.links old_s
    rw [srs_links_ne _ _ _ _ h4, srf_links_ne _ _ _ _ h2]
    exact hlo
  · show alookup (safe_remove_symlink (safe_remove_file σ new_w false).1 new_s
        false).1.files new_w = none
    rw [srs_files_ne _ _ _ _ h5]
    exact srf_ok_files_self σ new_w
  · show alookup (safe_remove_symlink (safe_remove_file σ new_w false).1 new_s
        false).1.links new_s = none
    exact srs_ok_links_self _ new_s

/-! ## Claim C2: rename failure during new-registration preserves the old entry -/

/-- C2 (confirmed): when `rename_command` passes its pre-checks (valid new
name, distinct names, old wrapper present, `force` on) and the `try` block
fails while reading the old wrapper, writing the new wrapper, chmodding it, or
creating the new symlink (rollback's own removals succeeding), the operation
reports a rename failure, the new wrapper and new symlink are absent
afterwards, and the old wrapper file and old symlink entries are exactly those
of the initial state — `oldName` stays fully registered. -/
theorem c2_rename_failure_preserves_old (home old_name new_name userInput : String)
    (fl : RenameFaults) (fs : FS)
    (hv : (validate_command_name new_name).1 = true)
    (hne : ¬ old_name = new_name)
    (hold : fs.pathExists (joinPath (WRAPPER_SCRIPTS_FOLDER home) old_name) = true)
    (hrW : fl.rollbackRemoveWrapper = false)
    (hrL : fl.rollbackRemoveLink = false)
    (hfault : fl.readOld = true ∨ fl.writeNew = true ∨ fl.chmodNew = true ∨
      fl.createNewLink = true) :
    (rename_command home old_name new_name true userInput fl fs).2
        = RenameResult.renameFailed ∧
      alookup (rename_command home old_name new_name true userInput fl fs).1.files
          (joinPath (WRAPPER_SCRIPTS_FOLDER home) old_name)
        = alookup fs.files (joinPath (WRAPPER_SCRIPTS_FOLDER home) old_name) ∧
      alookup (rename_command home old_name new_name true userInput fl fs).1.links
          (joinPath (USER_BIN_DIR home) old_name)
        = alookup fs.links (joinPath (USER_BIN_DIR home) old_name) ∧
      alookup (rename_command home old_name new_name true userInput fl fs).1.files
          (joinPath (WRAPPER_SCRIPTS_FOLDER home) new_name) = none ∧
      alookup (rename_command home old_name new_name true userInput fl fs).1.links
          (joinPath (USER_BIN_DIR home) new_name) = none := by
  have h1 : joinPath (WRAPPER_SCRIPTS_FOLDER home) new_name
      ≠ joinPath (WRAPPER_SCRIPTS_FOLDER home) old_name :=
    fun hh => hne ((joinPath_inj _ _ _ hh).symm)
  have h2 : joinPath (WRAPPER_SCRIPTS_FOLDER home) new_name
      ≠ joinPath (USER_BIN_DIR home) old_name :=
    fun hh => bin_ne_wrapper home old_name new_name hh.symm
  have h3 : joinPath (USER_BIN_DIR home) new_name
      ≠ joinPath (WRAPPER_SCRIPTS_FOLDER home) old_name :=
    bin_ne_wrapper home new_name old_name
  have h4 : joinPath (USER_BIN_DIR home) new_name
      ≠ joinPath (USER_BIN_DIR home) old_name :=
    fun hh => hne ((joinPath_inj _ _ _ hh).symm)
  have h5 : joinPath (USER_BIN_DIR home) new_name
      ≠ joinPath (WRAPPER_SCRIPTS_FOLDER home) new_name :=
    bin_ne_wrapper home new_name new_name
  unfold rename_command
  rw [if_neg (by simp [hv]), if_neg hne]
  simp only []
  rw [if_neg (by simp [hold]), if_neg (by simp)]
  unfold rename_try
  rw [hrW, hrL]
  by_cases hro : fl.readOld = true
  · rw [if_pos hro]
    exact rename_rollback_facts _ _ _ _ fs fs h1 h2 h3 h4 h5 rfl rfl
  · rw [if_neg hro]
    split
    next =>
      exact rename_rollback_facts _ _ _ _ fs fs h1 h2 h3 h4 h5 rfl rfl
    next sp hrd =>
      by_cases hwn : fl.writeNew = true
      · rw [if_pos hwn]
        exact rename_rollback_facts _ _ _ _ _ fs h1 h2 h3 h4 h5
          (writeFile_alookup_files_ne fs _ _ _ h1) rfl
      · rw [if_neg hwn]
        simp only []
        have hof : alookup (fs.writeFile
              (joinPath (WRAPPER_SCRIPTS_FOLDER home) new_name)
              (create_wrapper_script sp)).files
              (joinPath (WRAPPER_SCRIPTS_FOLDER home) old_name)
            = alookup fs.files (joinPath (WRAPPER_SCRIPTS_FOLDER home) old_name) :=
          writeFile_alookup_files_ne fs _ _ _ h1
        have hol : alookup (fs.writeFile
              (joinPath (WRAPPER_SCRIPTS_FOLDER home) new_name)
              (create_wrapper_script sp)).links
              (joinPath (USER_BIN_DIR home) old_name)
            = alookup fs.links (joinPath (USER_BIN_DIR home) old_name) := rfl
        by_cases hcn : fl.chmodNew = true
        · rw [if_pos hcn]
          exact rename_rollback_facts _ _ _ _ _ fs h1 h2 h3 h4 h5 hof hol
        · rw [if_neg hcn]
          by_cases hpre : (fs.writeFile
              (joinPath (WRAPPER_SCRIPTS_FOLDER home) new_name)
              (create_wrapper_script sp)).pathExists
              (joinPath (USER_BIN_DIR home) new_name) = true
          · rw [if_pos hpre]
            have hof2 : alookup (safe_remove_symlink (fs.writeFile
                  (joinPath (WRAPPER_SCRIPTS_FOLDER home) new_name)
                  (create_wrapper_script sp))
                  (joinPath (USER_BIN_DIR home) new_name) fl.removeNewLink).1.files
                  (joinPath (WRAPPER_SCRIPTS_FOLDER home) old_name)
                = alookup fs.files (joinPath (WRAPPER_SCRIPTS_FOLDER home) old_name) := by
              rw [srs_files_ne _ _ _ _ h3]
              exact hof
            have hol2 : alookup (safe_remove_symlink (fs.writeFile
                  (joinPath (WRAPPER_SCRIPTS_FOLDER home) new_name)
                  (create_wrapper_script sp))
                  (joinPath (USER_BIN_DIR home) new_name) fl.removeNewLink).1.links
                  (joinPath (USER_BIN_DIR home) old_name)
                = alookup fs.links (joinPath (USER_BIN_DIR home) old_name) := by
              rw [srs_links_ne _ _ _ _ h4]
              exact hol
            by_cases hblk : ((safe_remove_symlink (fs.writeFile
                  (joinPath (WRAPPER_SCRIPTS_FOLDER home) new_name)
                  (create_wrapper_script sp))
                  (joinPath (USER_BIN_DIR home) new_name) fl.removeNewLink).1.pathExists
                  (joinPath (USER_BIN_DIR home) new_name)
                || (safe_remove_symlink (fs.writeFile
                  (joinPath (WRAPPER_SCRIPTS_FOLDER home) new_name)
                  (create_wrapper_script sp))
                  (joinPath (USER_BIN_DIR home) new_name) fl.removeNewLink).1.isLink
                  (joinPath (USER_BIN_DIR home) new_name)) = true
            · rw [if_pos hblk]
              exact rename_rollback_facts _ _ _ _ _ fs h1 h2 h3 h4 h5 hof2 hol2
            · rw [if_neg hblk]
              by_cases hcl : fl.createNewLink = true
              · rw [if_pos hcl]
                exact rename_rollback_facts _ _ _ _ _ fs h1 h2 h3 h4 h5 hof2 hol2
              · exfalso
                rcases hfault with hf | hf | hf | hf
                · exact hro hf
                · exact hwn hf
                · exact hcn hf
                · exact hcl hf
          · rw [if_neg hpre]
            by_cases hblk : ((fs.writeFile
                  (joinPath (WRAPPER_SCRIPTS_FOLDER home) new_name)
                  (create_wrapper_script sp)).pathExists
                  (joinPath (USER_BIN_DIR home) new_name)
                || (fs.writeFile
                  (joinPath (WRAPPER_SCRIPTS_FOLDER home) new_name)
                  (create_wrapper_script sp)).isLink
                  (joinPath (USER_BIN_DIR home) new_name)) = true
            · rw [if_pos hblk]
              exact rename_rollback_facts _ _ _ _ _ fs h1 h2 h3 h4 h5 hof hol
            · rw [if_neg hblk]
              by_cases hcl : fl.createNewLink = true
              · rw [if_pos hcl]
                exact rename_rollback_facts _ _ _ _ _ fs h1 h2 h3 h4 h5 hof hol
              · exfalso
                rcases hfault with hf | hf | hf | hf
                · exact hro hf
                · exact hwn hf
                · exact hcn hf
                · exact hcl hf

/-- C2 witness: a failed read of the old wrapper leaves "a" fully registered. -/
theorem c2_witness :
    (validate_command_name "b").1 = true ∧
      (FS.mk [("/h/.local/lib/bake/scripts/a", "w")]
          [("/h/.local/bin/a", "/h/.local/lib/bake/scripts/a")]
          ["/h/.local/lib/bake/scripts", "/h/.local/bin"] []).pathExists
          (joinPath (WRAPPER_SCRIPTS_FOLDER "/h") "a") = true ∧
      (rename_command "/h" "a" "b" true ""
          ⟨true, false, false, false, false, false, false, false, false⟩
          (FS.mk [("/h/.local/lib/bake/scripts/a", "w")]
            [("/h/.local/bin/a", "/h/.local/lib/bake/scripts/a")]
            ["/h/.local/lib/bake/scripts", "/h/.local/bin"] [])).2
        = RenameResult.renameFailed := by
  refine ⟨by decide, by decide, ?_⟩
  exact (c2_rename_failure_preserves_old "/h" "a" "b" ""
    ⟨true, false, false, false, false, false, false, false, false⟩
    (FS.mk [("/h/.local/lib/bake/scripts/a", "w")]
      [("/h/.local/bin/a", "/h/.local/lib/bake/scripts/a")]
      ["/h/.local/lib/bake/scripts", "/h/.local/bin"] [])
    (by decide) (by decide) (by decide) rfl rfl (Or.inl rfl)).1

/-! ## Claim C1: add followed by list -/

theorem contains_false_of_not_mem (l : List Char) (c : Char) (h : c ∉ l) :
    l.contains c = false := by
  cases hb : l.contains c with
  | false => rfl
  | true => exact absurd (List.elem_iff.mp hb) h

theorem pathExists_of_dirs (fs : FS) (p : String) (h : fs.dirs.contains p = true) :
    fs.pathExists p = true := by
  unfold FS.pathExists
  rw [h]
  simp

/-- With no faults and a fresh symlink path, the `try` block of add reduces to
writing the wrapper and creating the symlink. -/
theorem add_try_fresh (home name p : String) (fs : FS)
    (hfsym : fs.pathExists (joinPath (USER_BIN_DIR home) name) = false)
    (hflink : fs.isLink (joinPath (USER_BIN_DIR home) name) = false) :
    add_try home name p noAddFaults fs =
      ((fs.writeFile (joinPath (WRAPPER_SCRIPTS_FOLDER home) name)
          (create_wrapper_script p)).addLink (joinPath (USER_BIN_DIR home) name)
        (joinPath (WRAPPER_SCRIPTS_FOLDER home) name), AddResult.success) := by
  have hns : joinPath (WRAPPER_SCRIPTS_FOLDER home) name
      ≠ joinPath (USER_BIN_DIR home) name :=
    fun hh => bin_ne_wrapper home name name hh.symm
  have hp1 : (fs.writeFile (joinPath (WRAPPER_SCRIPTS_FOLDER home) name)
      (create_wrapper_script p)).pathExists (joinPath (USER_BIN_DIR home) name) = false :=
    writeFile_pathExists_false fs _ _ _ hns hfsym hflink
  have hl1 : (fs.writeFile (joinPath (WRAPPER_SCRIPTS_FOLDER home) name)
      (create_wrapper_script p)).isLink (joinPath (USER_BIN_DIR home) name) = false := hflink
  have hc1 : ¬ ((fs.writeFile (joinPath (WRAPPER_SCRIPTS_FOLDER home) name)
      (create_wrapper_script p)).pathExists (joinPath (USER_BIN_DIR home) name) = true) := by
    simp [hp1]
  have hc2 : ¬ (((fs.writeFile (joinPath (WRAPPER_SCRIPTS_FOLDER home) name)
        (create_wrapper_script p)).pathExists (joinPath (USER_BIN_DIR home) name)
      || (fs.writeFile (joinPath (WRAPPER_SCRIPTS_FOLDER home) name)
        (create_wrapper_script p)).isLink (joinPath (USER_BIN_DIR home) name)) = true) := by
    simp [hp1, hl1]
  unfold add_try
  rw [if_neg (by decide)]
  simp only []
  rw [if_neg (by decide), if_neg hc1, if_neg hc2, if_neg (by decide)]

/-- C1 (corrected): the claim as stated fails because validation also demands
a `.py`/`.pyw` suffix (see the counterexample).  Amended: for a valid name and
a script path passing the script validation (which implies existing, regular,
readable and `.py`/`.pyw`-suffixed), containing no double quote, added with
force into a registry whose scripts directory exists, holds no entry for the
name, has no foreign symlink inside the scripts directory and only parseable
wrappers, the add succeeds and the subsequent listing contains the pair
`(name, abspath(script))` exactly once. -/
theorem c1_add_then_list (home cwd name script_arg userInput : String) (fs : FS)
    (hname : (validate_command_name name).1 = true)
    (hvalid : (validate_script_path fs (os_path_abspath cwd script_arg)).1 = true)
    (hquote : '"' ∉ (os_path_abspath cwd script_arg).data)
    (hfw : fs.pathExists (joinPath (WRAPPER_SCRIPTS_FOLDER home) name) = false)
    (hfsym : fs.pathExists (joinPath (USER_BIN_DIR home) name) = false)
    (hflink : fs.isLink (joinPath (USER_BIN_DIR home) name) = false)
    (hdir : fs.dirs.contains (WRAPPER_SCRIPTS_FOLDER home) = true)
    (hclean : ∀ pr ∈ fs.links,
      stripPre ((WRAPPER_SCRIPTS_FOLDER home).data ++ ['/']) pr.1.data = none)
    (hextract : ∀ pr ∈ fs.files, ∀ r,
      stripPre ((WRAPPER_SCRIPTS_FOLDER home).data ++ ['/']) pr.1.data = some r →
      (extractScriptPath pr.2).isSome = true) :
    (add_command home cwd name script_arg true userInput noAddFaults fs).2
        = AddResult.success ∧
      ∃ rows,
        list_commands home
            (add_command home cwd name script_arg true userInput noAddFaults fs).1
          = ListResult.table rows ∧
        rows.count (name, os_path_abspath cwd script_arg) = 1 := by
  have hadd : add_command home cwd name script_arg true userInput noAddFaults fs
      = ((fs.writeFile (joinPath (WRAPPER_SCRIPTS_FOLDER home) name)
            (create_wrapper_script (os_path_abspath cwd script_arg))).addLink
          (joinPath (USER_BIN_DIR home) name)
          (joinPath (WRAPPER_SCRIPTS_FOLDER home) name), AddResult.success) := by
    unfold add_command
    rw [if_neg (by simp [hname]), if_neg (by simp [hvalid]), if_neg (by simp)]
    exact add_try_fresh home name (os_path_abspath cwd script_arg) fs hfsym hflink
  rw [hadd]
  set pa := os_path_abspath cwd script_arg with hpa
  set fs' := (fs.writeFile (joinPath (WRAPPER_SCRIPTS_FOLDER home) name)
      (create_wrapper_script pa)).addLink (joinPath (USER_BIN_DIR home) name)
    (joinPath (WRAPPER_SCRIPTS_FOLDER home) name) with hfsdef
  refine ⟨rfl, ?_⟩
  show ∃ rows, list_commands home fs' = ListResult.table rows ∧
    rows.count (name, pa) = 1
  have hfilesnone : alookup fs.files (joinPath (WRAPPER_SCRIPTS_FOLDER home) name)
      = none := isFile_false_alookup fs _ (pathExists_false_parts fs _ hfw).1
  have hlinksnone : alookup fs.links (joinPath (USER_BIN_DIR home) name) = none :=
    isLink_false_alookup fs _ hflink
  have hfiles : fs'.files = (joinPath (WRAPPER_SCRIPTS_FOLDER home) name,
      create_wrapper_script pa) :: fs.files := by
    rw [hfsdef, addLink_files, writeFile_files, aerase_of_alookup_none _ _ hfilesnone]
  have hlinks : fs'.links = (joinPath (USER_BIN_DIR home) name,
      joinPath (WRAPPER_SCRIPTS_FOLDER home) name) :: fs.links := by
    rw [hfsdef, addLink_links, writeFile_links, aerase_of_alookup_none _ _ hlinksnone]
  have hnsl : name.data.contains '/' = false :=
    contains_false_of_not_mem _ _
      (pyMatch_not_mem name (validate_name_unfold name hname).2.1 '/'
        (by decide) (by decide))
  have hlist : fs'.listdir (WRAPPER_SCRIPTS_FOLDER home)
      = name :: fs.listdir (WRAPPER_SCRIPTS_FOLDER home) := by
    unfold FS.listdir
    rw [hfiles, hlinks, List.map_cons, List.map_cons]
    set g1 := fun q : String =>
      match stripPre ((WRAPPER_SCRIPTS_FOLDER home).data ++ ['/']) q.data with
      | some r => if r.contains '/' then none else some (String.mk r)
      | none => none
      with hg1
    have hgw : g1 (joinPath (WRAPPER_SCRIPTS_FOLDER home) name) = some name := by
      rw [hg1]
      show (match stripPre ((WRAPPER_SCRIPTS_FOLDER home).data ++ ['/'])
          (joinPath (WRAPPER_SCRIPTS_FOLDER home) name).data with
        | some r => if r.contains '/' = true then none else some (String.mk r)
        | none => none) = some name
      rw [stripPre_wrapper_join]
      show (if name.data.contains '/' = true then none else some (String.mk name.data))
        = some name
      rw [if_neg (by rw [hnsl]; exact Bool.false_ne_true)]
    have hgs : g1 (joinPath (USER_BIN_DIR home) name) = none := by
      rw [hg1]
      show (match stripPre ((WRAPPER_SCRIPTS_FOLDER home).data ++ ['/'])
          (joinPath (USER_BIN_DIR home) name).data with
        | some r => if r.contains '/' = true then none else some (String.mk r)
        | none => none) = none
      rw [stripPre_bin_none]
    rw [List.filterMap_append, List.filterMap_cons_some hgw, List.filterMap_cons_none hgs,
      List.filterMap_append, List.cons_append]
  have hnot : name ∉ fs.listdir (WRAPPER_SCRIPTS_FOLDER home) := by
    intro hmem
    obtain ⟨q, hq, hdec, hsl⟩ := mem_listdir_decomp fs _ name hmem
    have hqw : q = joinPath (WRAPPER_SCRIPTS_FOLDER home) name :=
      string_data_inj _ _ (by rw [hdec, join_data_pre])
    rcases List.mem_append.mp hq with hqf | hql
    · rw [hqw] at hqf
      exact alookup_none_not_mem _ _ hfilesnone hqf
    · obtain ⟨pr, hpr, hpr1⟩ := List.mem_map.mp hql
      have hc := hclean pr hpr
      rw [hpr1, hdec, stripPre_append] at hc
      simp at hc
  have hpe : fs'.pathExists (WRAPPER_SCRIPTS_FOLDER home) = true := by
    apply pathExists_of_dirs
    show fs.dirs.contains (WRAPPER_SCRIPTS_FOLDER home) = true
    exact hdir
  have hm : markerCoreStr.data.isSuffixOf pa.data = false :=
    valid_script_not_marker_end fs pa hvalid
  have hroundtrip : extractScriptPath (create_wrapper_script pa) = some pa :=
    extract_roundtrip pa hquote hm
  have halkw : alookup fs'.files (joinPath (WRAPPER_SCRIPTS_FOLDER home) name)
      = some (create_wrapper_script pa) := by
    rw [hfiles]
    exact alookup_cons_self _ _ _
  have hrfw : fs'.readFile (joinPath (WRAPPER_SCRIPTS_FOLDER home) name)
      = some (create_wrapper_script pa) := by
    unfold FS.readFile
    rw [halkw]
  have hgname : (fun cmd =>
      match (fs'.readFile (joinPath (WRAPPER_SCRIPTS_FOLDER home) cmd)).bind
          extractScriptPath with
      | some sp => some (cmd, sp)
      | none => none) name = some (name, pa) := by
    show (match (fs'.readFile (joinPath (WRAPPER_SCRIPTS_FOLDER home) name)).bind
        extractScriptPath with
      | some sp => some (name, sp)
      | none => none) = some (name, pa)
    rw [hrfw, Option.some_bind, hroundtrip]
  have hall : ∀ cmd ∈ sortStrings (name :: fs.listdir (WRAPPER_SCRIPTS_FOLDER home)),
      ((fun cmd =>
        match (fs'.readFile (joinPath (WRAPPER_SCRIPTS_FOLDER home) cmd)).bind
            extractScriptPath with
        | some sp => some (cmd, sp)
        | none => none) cmd).isSome = true := by
    intro cmd hcmd
    have hcm : cmd ∈ name :: fs.listdir (WRAPPER_SCRIPTS_FOLDER home) :=
      ((List.perm_insertionSort (· ≤ ·) _).mem_iff).mp hcmd
    rcases List.mem_cons.mp hcm with rfl | hmem
    · rw [hgname]
      rfl
    · obtain ⟨q, hq, hdec, hsl⟩ := mem_listdir_decomp fs _ cmd hmem
      have hqj : joinPath (WRAPPER_SCRIPTS_FOLDER home) cmd = q :=
        (string_data_inj _ _ (by rw [hdec, join_data_pre])).symm
      rcases List.mem_append.mp hq with hqf | hql
      · by_cases hqw : q = joinPath (WRAPPER_SCRIPTS_FOLDER home) name
        · rw [hqw] at hqf
          exact absurd hqf (alookup_none_not_mem _ _ hfilesnone)
        · obtain ⟨v, hv⟩ := alookup_mem_some fs.files q hqf
          have hprv : (q, v) ∈ fs.files := alookup_some_mem _ _ _ hv
          have hex : (extractScriptPath v).isSome = true := by
            refine hextract (q, v) hprv cmd.data ?_
            show stripPre ((WRAPPER_SCRIPTS_FOLDER home).data ++ ['/']) q.data
              = some cmd.data
            rw [hdec, stripPre_append]
          have halkq : alookup fs'.files q = some v := by
            rw [hfiles, alookup_cons_ne _ _ _ _ (fun hh => hqw hh.symm)]
            exact hv
          have hrfq : fs'.readFile q = some v := by
            unfold FS.readFile
            rw [halkq]
          obtain ⟨sp, hsp⟩ := Option.isSome_iff_exists.mp hex
          show (match (fs'.readFile (joinPath (WRAPPER_SCRIPTS_FOLDER home) cmd)).bind
              extractScriptPath with
            | some sp => some (cmd, sp)
            | none => none).isSome = true
          rw [hqj, hrfq, Option.some_bind, hsp]
          rfl
      · obtain ⟨pr, hpr, hpr1⟩ := List.mem_map.mp hql
        have hc := hclean pr hpr
        rw [hpr1, hdec, stripPre_append] at hc
        simp at hc
  obtain ⟨rows, hrows⟩ := optMapList_some_of_all _ _ hall
  unfold list_commands
  rw [if_neg (by simp [hpe]), hlist]
  rw [if_neg (by simp)]
  refine ⟨rows, ?_, ?_⟩
  · rw [hrows]
  · have hshape : ∀ (a : String) (b : String × String),
        (fun cmd =>
          match (fs'.readFile (joinPath (WRAPPER_SCRIPTS_FOLDER home) cmd)).bind
              extractScriptPath with
          | some sp => some (cmd, sp)
          | none => none) a = some b → b.1 = a := by
      intro a b hab
      simp only [] at hab
      split at hab
      · have hb := Option.some_inj.mp hab
        rw [← hb]
      · exact absurd hab (by simp)
    have hfst : rows.map Prod.fst
        = sortStrings (name :: fs.listdir (WRAPPER_SCRIPTS_FOLDER home)) :=
      optMapList_fst _ _ rows hshape hrows
    have hcnt : (rows.map Prod.fst).count name = 1 := by
      rw [hfst]
      unfold sortStrings
      rw [(List.perm_insertionSort (· ≤ ·)
        (name :: fs.listdir (WRAPPER_SCRIPTS_FOLDER home))).count_eq,
        List.count_cons_self, List.count_eq_zero.mpr hnot]
    have hmemrow : (name, pa) ∈ rows :=
      optMapList_mem _ _ rows hrows name (name, pa)
        (((List.perm_insertionSort (· ≤ ·) _).mem_iff).mpr (List.mem_cons_self _ _))
        hgname
    exact count_pair_of_fst_count rows name pa hcnt hmemrow

/-- C1 counterexample: `/tmp/script.sh` exists, is a regular file and is
readable, and `foo` is a valid command name, yet Add fails — the code also
requires a `.py`/`.pyw` suffix, which the claim does not state. -/
theorem c1_counterexample :
    (validate_command_name "foo").1 = true ∧
      (FS.mk [("/tmp/script.sh", "echo hi")] []
          ["/h/.local/lib/bake/scripts", "/h/.local/bin"] ["/tmp/script.sh"]).isFile
          "/tmp/script.sh" = true ∧
      "/tmp/script.sh" ∈ (FS.mk [("/tmp/script.sh", "echo hi")] []
          ["/h/.local/lib/bake/scripts", "/h/.local/bin"] ["/tmp/script.sh"]).readable ∧
      (add_command "/h" "/" "foo" "/tmp/script.sh" true "" noAddFaults
          (FS.mk [("/tmp/script.sh", "echo hi")] []
            ["/h/.local/lib/bake/scripts", "/h/.local/bin"] ["/tmp/script.sh"])).2
        ≠ AddResult.success := by
  refine ⟨by decide, by decide, by decide, by decide⟩

/-- C1 witness: adding a fresh `.py` script under a valid name succeeds. -/
theorem c1_witness :
    (add_command "/h" "/" "foo" "/tmp/a.py" true "" noAddFaults
        (FS.mk [("/tmp/a.py", "print(1)")] []
          ["/h/.local/lib/bake/scripts", "/h/.local/bin"] ["/tmp/a.py"])).2
      = AddResult.success :=
  (c1_add_then_list "/h" "/" "foo" "/tmp/a.py" ""
    (FS.mk [("/tmp/a.py", "print(1)")] []
      ["/h/.local/lib/bake/scripts", "/h/.local/bin"] ["/tmp/a.py"])
    (by decide) (by decide) (by decide) (by decide) (by decide) (by decide) (by decide)
    (by
      intro pr hpr
      exact absurd hpr (List.not_mem_nil pr))
    (by
      intro pr hpr r hr
      have hpr2 : pr = ("/tmp/a.py", "print(1)") := by
        rcases List.mem_cons.mp hpr with h | h
        · exact h
        · exact absurd h (List.not_mem_nil pr)
      rw [hpr2] at hr
      have hr2 : stripPre ((WRAPPER_SCRIPTS_FOLDER "/h").data ++ ['/'])
          "/tmp/a.py".data = some r := hr
      have hnone : stripPre ((WRAPPER_SCRIPTS_FOLDER "/h").data ++ ['/'])
          "/tmp/a.py".data = none := by decide
      rw [hnone] at hr2
      exact absurd hr2 (by simp))).1
